import Mathlib

set_option maxHeartbeats 1000000

/-!
Shallow embedding of the SimpleCPU toolchain: the CPU emulator
(src/cpu.h, src/cpu.c) and the single-pass assembler (src/assembler.c).

Machine integers are modelled as `Nat` with explicit reduction modulo
2^8 / 2^16 / 2^32 at the points where the C types truncate.  Host
standard input and output are modelled as byte lists carried in the CPU
state, since the memory-mapped STDIN/STDOUT ports read and write them.
Fallible C functions that return `-1` are modelled with `Option`.
-/

/-- MEMORY_SIZE from cpu.h: 64 KiB address space. -/
def MEMORY_SIZE : Nat := 0x10000

/-- Register indices from cpu.h. -/
def REG_A : Nat := 0
def REG_B : Nat := 1
def REG_C : Nat := 2
def REG_D : Nat := 3
def REG_SP : Nat := 4
def REG_PC : Nat := 5

/-- Flag bits from cpu.h. -/
def FLAG_ZERO : Nat := 0x80
def FLAG_CARRY : Nat := 0x40
def FLAG_NEGATIVE : Nat := 0x20
def FLAG_OVERFLOW : Nat := 0x10

/-- Memory-mapped I/O ports from cpu.h. -/
def PORT_STDOUT : Nat := 0xFF00
def PORT_STDIN : Nat := 0xFF01
def PORT_TIMER_CTRL : Nat := 0xFF02
def PORT_TIMER_VALUE : Nat := 0xFF03

/-- Opcodes from cpu.h. -/
def OP_NOP : Nat := 0x00
def OP_LOAD_IMM : Nat := 0x01
def OP_LOAD_MEM : Nat := 0x02
def OP_STORE : Nat := 0x03
def OP_MOV : Nat := 0x04
def OP_PUSH : Nat := 0x05
def OP_POP : Nat := 0x06
def OP_ADD : Nat := 0x10
def OP_ADDI : Nat := 0x11
def OP_SUB : Nat := 0x12
def OP_SUBI : Nat := 0x13
def OP_MUL : Nat := 0x14
def OP_DIV : Nat := 0x15
def OP_INC : Nat := 0x16
def OP_DEC : Nat := 0x17
def OP_AND : Nat := 0x20
def OP_OR : Nat := 0x21
def OP_XOR : Nat := 0x22
def OP_NOT : Nat := 0x23
def OP_SHL : Nat := 0x24
def OP_SHR : Nat := 0x25
def OP_CMP : Nat := 0x30
def OP_CMPI : Nat := 0x31
def OP_JMP : Nat := 0x40
def OP_JZ : Nat := 0x41
def OP_JNZ : Nat := 0x42
def OP_JC : Nat := 0x43
def OP_JNC : Nat := 0x44
def OP_CALL : Nat := 0x45
def OP_RET : Nat := 0x46
def OP_IN : Nat := 0x50
def OP_OUT : Nat := 0x51
def OP_HLT : Nat := 0xFF

/-- Pointwise update of a function, used for the register file and memory
(the C code mutates arrays in place). -/
def upd (f : Nat → Nat) (i v : Nat) : Nat → Nat :=
  fun j => if j = i then v else f j

/-- The CPU struct from cpu.h.  `regs` holds the six 16-bit registers at
indices 0..5; `memory` is byte-addressable at 0..0xFFFF.  `input` and
`output` model the host stdin / stdout byte streams touched by the
memory-mapped STDIN / STDOUT ports. -/
structure CPU where
  regs : Nat → Nat
  flags : Nat
  memory : Nat → Nat
  running : Bool
  halted : Bool
  cycles : Nat
  timer_value : Nat
  timer_enabled : Bool
  input : List Nat
  output : List Nat

/-- cpu_init from cpu.c: zeroed state except SP = 0xFEFF and PC = 0x0100.
The host streams are parameters of the model. -/
def cpu_init (stdin : List Nat) : CPU :=
  { regs := upd (upd (fun _ => 0) REG_SP 0xFEFF) REG_PC 0x0100
    flags := 0
    memory := fun _ => 0
    running := false
    halted := false
    cycles := 0
    timer_value := 0
    timer_enabled := false
    input := stdin
    output := [] }

/-- cpu_read_byte from cpu.c.  Reading the STDIN port consumes the host
input stream (getchar; EOF reads as 0); the two timer ports are mapped;
anything else is a RAM read.  Returns the byte and the possibly updated
state. -/
def cpu_read_byte (c : CPU) (addr : Nat) : Nat × CPU :=
  if addr = PORT_STDIN then
    match c.input with
    | [] => (0, c)
    | ch :: rest => (ch % 256, { c with input := rest })
  else if addr = PORT_TIMER_VALUE then
    (c.timer_value % 256, c)
  else if addr = PORT_TIMER_CTRL then
    (if c.timer_enabled then 1 else 0, c)
  else
    (c.memory (addr % 65536) % 256, c)

/-- cpu_read_word from cpu.c: two little-endian byte reads.  The C code
returns `(high << 8) | low`; both bytes are < 256, so this equals
`high * 256 + low`. -/
def cpu_read_word (c : CPU) (addr : Nat) : Nat × CPU :=
  let lo := cpu_read_byte c addr
  let hi := cpu_read_byte lo.2 ((addr + 1) % 65536)
  (hi.1 * 256 + lo.1, hi.2)

/-- cpu_write_byte from cpu.c.  Writing the STDOUT port appends to the
host output stream; the timer ports are mapped; anything else is a RAM
write.  The value is truncated to a byte at the call boundary (uint8_t
parameter). -/
def cpu_write_byte (c : CPU) (addr value : Nat) : CPU :=
  if addr = PORT_STDOUT then
    { c with output := c.output ++ [value % 256] }
  else if addr = PORT_TIMER_CTRL then
    if value % 256 ≠ 0 then
      { c with timer_enabled := true, timer_value := 0 }
    else
      { c with timer_enabled := false }
  else if addr = PORT_TIMER_VALUE then
    { c with timer_value := value % 256 }
  else
    { c with memory := upd c.memory (addr % 65536) (value % 256) }

/-- cpu_write_word from cpu.c: two little-endian byte writes
(`value & 0xFF` then `(value >> 8) & 0xFF`). -/
def cpu_write_word (c : CPU) (addr value : Nat) : CPU :=
  cpu_write_byte (cpu_write_byte c addr (value % 256))
    ((addr + 1) % 65536) (value / 256 % 256)

/-- cpu_get_reg from cpu.c: indices ≥ 6 read as 0 (defensive).  The
`% 65536` reflects the uint16_t register type. -/
def cpu_get_reg (c : CPU) (reg : Nat) : Nat :=
  if reg < 6 then c.regs reg % 65536 else 0

/-- cpu_set_reg from cpu.c: indices ≥ 6 are a no-op. -/
def cpu_set_reg (c : CPU) (reg value : Nat) : CPU :=
  if reg < 6 then { c with regs := upd c.regs reg (value % 65536) } else c

/-- cpu_set_flag from cpu.c: `flags |= flag` or `flags &= ~flag`
(complement within the uint8_t flags byte: `255 ^^^ flag`). -/
def cpu_set_flag (c : CPU) (flag : Nat) (value : Bool) : CPU :=
  if value then { c with flags := c.flags ||| flag }
  else { c with flags := c.flags &&& (255 ^^^ flag) }

/-- cpu_get_flag from cpu.c: `(flags & flag) != 0`. -/
def cpu_get_flag (c : CPU) (flag : Nat) : Bool :=
  c.flags &&& flag != 0

/-- cpu_set_flags_arithmetic from cpu.c.  The C parameter is a uint16_t,
so the 32-bit caller results are truncated at the call boundary; `Z` is
set from `(result & 0xFFFF) == 0` and `N` from bit 15. -/
def cpu_set_flags_arithmetic (c : CPU) (result : Nat) (carry overflow : Bool) : CPU :=
  let r := result % 65536
  cpu_set_flag
    (cpu_set_flag
      (cpu_set_flag
        (cpu_set_flag c FLAG_ZERO (r == 0))
        FLAG_NEGATIVE (r &&& 0x8000 != 0))
      FLAG_CARRY carry)
    FLAG_OVERFLOW overflow

/-- cpu_push from cpu.c: SP ← SP − 2 (uint16_t wrap), then store the word
little-endian at the new SP. -/
def cpu_push (c : CPU) (value : Nat) : CPU :=
  let sp := (c.regs REG_SP % 65536 + 65534) % 65536
  cpu_write_word { c with regs := upd c.regs REG_SP sp } sp value

/-- cpu_pop from cpu.c: read the word at SP, then SP ← SP + 2 (wrap). -/
def cpu_pop (c : CPU) : Nat × CPU :=
  let rv := cpu_read_word c (c.regs REG_SP % 65536)
  (rv.1, { rv.2 with regs := upd rv.2.regs REG_SP ((rv.2.regs REG_SP % 65536 + 2) % 65536) })

/-- The runtime error taxonomy: the `-1` return from cpu_step together
with the stderr diagnostic, which names the kind and carries the
(uncommitted) PC of the offending instruction. -/
inductive RuntimeError where
  | DivideByZero (pc : Nat)
  | UnknownOpcode (opcode : Nat) (pc : Nat)
deriving DecidableEq

/-- The int return value of cpu_step: > 0 executed, 0 already halted,
< 0 fatal error. -/
inductive StepResult where
  | ok
  | alreadyHalted
  | err (e : RuntimeError)
deriving DecidableEq

/-- Outcome of the decode/execute switch of cpu_step before the final
PC/cycles commit: a success/error tag, the local PC cursor, and the
mutated state. -/
inductive ExecOut where
  | ok (pc : Nat) (c : CPU)
  | err (e : RuntimeError) (c : CPU)

/-- The timer update at the top of cpu_step: `timer_value++` (uint16_t)
when the timer is enabled. -/
def timerBump (c : CPU) : CPU :=
  if c.timer_enabled then { c with timer_value := (c.timer_value + 1) % 65536 } else c

/-- The decode & execute switch of cpu_step from cpu.c, one function
per opcode case.  `pc` is the local cursor already advanced past the
opcode byte; every further operand fetch advances it with uint16_t
wrap.  Each case is a direct transcription of the corresponding C
case. -/
def exec_load_imm (pc : Nat) (c : CPU) : ExecOut :=
  let rb := cpu_read_byte c pc
  let pc1 := (pc + 1) % 65536
  let rw := cpu_read_word rb.2 pc1
  .ok ((pc1 + 2) % 65536) (cpu_set_reg rw.2 rb.1 rw.1)

/-- LOAD r, [addr]. -/
def exec_load_mem (pc : Nat) (c : CPU) : ExecOut :=
  let rb := cpu_read_byte c pc
  let pc1 := (pc + 1) % 65536
  let rw := cpu_read_word rb.2 pc1
  let rv := cpu_read_word rw.2 rw.1
  .ok ((pc1 + 2) % 65536) (cpu_set_reg rv.2 rb.1 rv.1)

/-- STORE [addr], r. -/
def exec_store (pc : Nat) (c : CPU) : ExecOut :=
  let rw := cpu_read_word c pc
  let pc2 := (pc + 2) % 65536
  let rb := cpu_read_byte rw.2 pc2
  .ok ((pc2 + 1) % 65536) (cpu_write_word rb.2 rw.1 (cpu_get_reg rb.2 rb.1))

/-- MOV r1, r2. -/
def exec_mov (pc : Nat) (c : CPU) : ExecOut :=
  let rb := cpu_read_byte c pc
  let r1 := rb.1 >>> 4 &&& 0x0F
  let r2 := rb.1 &&& 0x0F
  .ok ((pc + 1) % 65536) (cpu_set_reg rb.2 r1 (cpu_get_reg rb.2 r2))

/-- PUSH r. -/
def exec_push (pc : Nat) (c : CPU) : ExecOut :=
  let rb := cpu_read_byte c pc
  .ok ((pc + 1) % 65536) (cpu_push rb.2 (cpu_get_reg rb.2 rb.1))

/-- POP r. -/
def exec_pop (pc : Nat) (c : CPU) : ExecOut :=
  let rb := cpu_read_byte c pc
  let pv := cpu_pop rb.2
  .ok ((pc + 1) % 65536) (cpu_set_reg pv.2 rb.1 pv.1)

/-- ADD r1, r2. -/
def exec_add (pc : Nat) (c : CPU) : ExecOut :=
  let rb := cpu_read_byte c pc
  let r1 := rb.1 >>> 4 &&& 0x0F
  let r2 := rb.1 &&& 0x0F
  let a := cpu_get_reg rb.2 r1
  let b := cpu_get_reg rb.2 r2
  let result := a + b
  let c1 := cpu_set_reg rb.2 r1 (result &&& 0xFFFF)
  let carry : Bool := decide (result > 0xFFFF)
  let overflow : Bool := decide ((a ^^^ result) &&& (b ^^^ result) &&& 0x8000 ≠ 0)
  .ok ((pc + 1) % 65536) (cpu_set_flags_arithmetic c1 result carry overflow)

/-- ADDI r, imm16. -/
def exec_addi (pc : Nat) (c : CPU) : ExecOut :=
  let rb := cpu_read_byte c pc
  let pc1 := (pc + 1) % 65536
  let rw := cpu_read_word rb.2 pc1
  let a := cpu_get_reg rw.2 rb.1
  let result := a + rw.1
  let c1 := cpu_set_reg rw.2 rb.1 (result &&& 0xFFFF)
  let carry : Bool := decide (result > 0xFFFF)
  let overflow : Bool := decide ((a ^^^ result) &&& (rw.1 ^^^ result) &&& 0x8000 ≠ 0)
  .ok ((pc1 + 2) % 65536) (cpu_set_flags_arithmetic c1 result carry overflow)

/-- SUB r1, r2 (the 32-bit intermediate wraps mod 2^32). -/
def exec_sub (pc : Nat) (c : CPU) : ExecOut :=
  let rb := cpu_read_byte c pc
  let r1 := rb.1 >>> 4 &&& 0x0F
  let r2 := rb.1 &&& 0x0F
  let a := cpu_get_reg rb.2 r1
  let b := cpu_get_reg rb.2 r2
  let result := (a + 4294967296 - b) % 4294967296
  let c1 := cpu_set_reg rb.2 r1 (result &&& 0xFFFF)
  let carry : Bool := decide (a < b)
  let overflow : Bool := decide ((a ^^^ b) &&& (a ^^^ result) &&& 0x8000 ≠ 0)
  .ok ((pc + 1) % 65536) (cpu_set_flags_arithmetic c1 result carry overflow)

/-- SUBI r, imm16. -/
def exec_subi (pc : Nat) (c : CPU) : ExecOut :=
  let rb := cpu_read_byte c pc
  let pc1 := (pc + 1) % 65536
  let rw := cpu_read_word rb.2 pc1
  let a := cpu_get_reg rw.2 rb.1
  let result := (a + 4294967296 - rw.1) % 4294967296
  let c1 := cpu_set_reg rw.2 rb.1 (result &&& 0xFFFF)
  let carry : Bool := decide (a < rw.1)
  let overflow : Bool := decide ((a ^^^ rw.1) &&& (a ^^^ result) &&& 0x8000 ≠ 0)
  .ok ((pc1 + 2) % 65536) (cpu_set_flags_arithmetic c1 result carry overflow)

/-- MUL r1, r2. -/
def exec_mul (pc : Nat) (c : CPU) : ExecOut :=
  let rb := cpu_read_byte c pc
  let r1 := rb.1 >>> 4 &&& 0x0F
  let r2 := rb.1 &&& 0x0F
  let result := cpu_get_reg rb.2 r1 * cpu_get_reg rb.2 r2
  let c1 := cpu_set_reg rb.2 r1 (result &&& 0xFFFF)
  .ok ((pc + 1) % 65536)
    (cpu_set_flags_arithmetic c1 result (decide (result > 0xFFFF)) false)

/-- DIV r1, r2: divisor 0 is a fatal DivideByZero carrying the
uncommitted PC; otherwise quotient to r1, remainder to r2. -/
def exec_div (pc : Nat) (c : CPU) : ExecOut :=
  let rb := cpu_read_byte c pc
  let r1 := rb.1 >>> 4 &&& 0x0F
  let r2 := rb.1 &&& 0x0F
  let divisor := cpu_get_reg rb.2 r2
  if divisor = 0 then
    .err (.DivideByZero (rb.2.regs REG_PC % 65536)) rb.2
  else
    let dividend := cpu_get_reg rb.2 r1
    let quotient := dividend / divisor
    let remainder := dividend % divisor
    let c1 := cpu_set_reg rb.2 r1 quotient
    let c2 := cpu_set_reg c1 r2 remainder
    .ok ((pc + 1) % 65536) (cpu_set_flags_arithmetic c2 quotient false false)

/-- INC r. -/
def exec_inc (pc : Nat) (c : CPU) : ExecOut :=
  let rb := cpu_read_byte c pc
  let v := (cpu_get_reg rb.2 rb.1 + 1) % 65536
  .ok ((pc + 1) % 65536)
    (cpu_set_flags_arithmetic (cpu_set_reg rb.2 rb.1 v) v false false)

/-- DEC r. -/
def exec_dec (pc : Nat) (c : CPU) : ExecOut :=
  let rb := cpu_read_byte c pc
  let v := (cpu_get_reg rb.2 rb.1 + 65535) % 65536
  .ok ((pc + 1) % 65536)
    (cpu_set_flags_arithmetic (cpu_set_reg rb.2 rb.1 v) v false false)

/-- AND r1, r2. -/
def exec_and (pc : Nat) (c : CPU) : ExecOut :=
  let rb := cpu_read_byte c pc
  let r1 := rb.1 >>> 4 &&& 0x0F
  let r2 := rb.1 &&& 0x0F
  let result := cpu_get_reg rb.2 r1 &&& cpu_get_reg rb.2 r2
  .ok ((pc + 1) % 65536)
    (cpu_set_flags_arithmetic (cpu_set_reg rb.2 r1 result) result false false)

/-- OR r1, r2. -/
def exec_or (pc : Nat) (c : CPU) : ExecOut :=
  let rb := cpu_read_byte c pc
  let r1 := rb.1 >>> 4 &&& 0x0F
  let r2 := rb.1 &&& 0x0F
  let result := cpu_get_reg rb.2 r1 ||| cpu_get_reg rb.2 r2
  .ok ((pc + 1) % 65536)
    (cpu_set_flags_arithmetic (cpu_set_reg rb.2 r1 result) result false false)

/-- XOR r1, r2. -/
def exec_xor (pc : Nat) (c : CPU) : ExecOut :=
  let rb := cpu_read_byte c pc
  let r1 := rb.1 >>> 4 &&& 0x0F
  let r2 := rb.1 &&& 0x0F
  let result := cpu_get_reg rb.2 r1 ^^^ cpu_get_reg rb.2 r2
  .ok ((pc + 1) % 65536)
    (cpu_set_flags_arithmetic (cpu_set_reg rb.2 r1 result) result false false)

/-- NOT r (bitwise complement within uint16_t). -/
def exec_not (pc : Nat) (c : CPU) : ExecOut :=
  let rb := cpu_read_byte c pc
  let result := 65535 ^^^ cpu_get_reg rb.2 rb.1
  .ok ((pc + 1) % 65536)
    (cpu_set_flags_arithmetic (cpu_set_reg rb.2 rb.1 result) result false false)

/-- SHL r, imm8. -/
def exec_shl (pc : Nat) (c : CPU) : ExecOut :=
  let rb := cpu_read_byte c pc
  let pc1 := (pc + 1) % 65536
  let rs := cpu_read_byte rb.2 pc1
  let value := cpu_get_reg rs.2 rb.1
  let result := (value <<< rs.1) % 65536
  let carry : Bool := decide (rs.1 > 0 ∧ value &&& (1 <<< (16 - rs.1)) ≠ 0)
  .ok ((pc1 + 1) % 65536)
    (cpu_set_flags_arithmetic (cpu_set_reg rs.2 rb.1 result) result carry false)

/-- SHR r, imm8. -/
def exec_shr (pc : Nat) (c : CPU) : ExecOut :=
  let rb := cpu_read_byte c pc
  let pc1 := (pc + 1) % 65536
  let rs := cpu_read_byte rb.2 pc1
  let value := cpu_get_reg rs.2 rb.1
  let result := value >>> rs.1
  let carry : Bool := decide (rs.1 > 0 ∧ value &&& (1 <<< (rs.1 - 1)) ≠ 0)
  .ok ((pc1 + 1) % 65536)
    (cpu_set_flags_arithmetic (cpu_set_reg rs.2 rb.1 result) result carry false)

/-- CMP r1, r2 (flags only). -/
def exec_cmp (pc : Nat) (c : CPU) : ExecOut :=
  let rb := cpu_read_byte c pc
  let r1 := rb.1 >>> 4 &&& 0x0F
  let r2 := rb.1 &&& 0x0F
  let a := cpu_get_reg rb.2 r1
  let b := cpu_get_reg rb.2 r2
  let result := (a + 4294967296 - b) % 4294967296
  let carry : Bool := decide (a < b)
  let overflow : Bool := decide ((a ^^^ b) &&& (a ^^^ result) &&& 0x8000 ≠ 0)
  .ok ((pc + 1) % 65536) (cpu_set_flags_arithmetic rb.2 result carry overflow)

/-- CMPI r, imm16 (flags only). -/
def exec_cmpi (pc : Nat) (c : CPU) : ExecOut :=
  let rb := cpu_read_byte c pc
  let pc1 := (pc + 1) % 65536
  let rw := cpu_read_word rb.2 pc1
  let a := cpu_get_reg rw.2 rb.1
  let result := (a + 4294967296 - rw.1) % 4294967296
  let carry : Bool := decide (a < rw.1)
  let overflow : Bool := decide ((a ^^^ rw.1) &&& (a ^^^ result) &&& 0x8000 ≠ 0)
  .ok ((pc1 + 2) % 65536) (cpu_set_flags_arithmetic rw.2 result carry overflow)

/-- JMP addr. -/
def exec_jmp (pc : Nat) (c : CPU) : ExecOut :=
  let rw := cpu_read_word c pc
  .ok rw.1 rw.2

/-- JZ addr. -/
def exec_jz (pc : Nat) (c : CPU) : ExecOut :=
  let rw := cpu_read_word c pc
  let pc2 := (pc + 2) % 65536
  .ok (if cpu_get_flag rw.2 FLAG_ZERO then rw.1 else pc2) rw.2

/-- JNZ addr. -/
def exec_jnz (pc : Nat) (c : CPU) : ExecOut :=
  let rw := cpu_read_word c pc
  let pc2 := (pc + 2) % 65536
  .ok (if !(cpu_get_flag rw.2 FLAG_ZERO) then rw.1 else pc2) rw.2

/-- JC addr. -/
def exec_jc (pc : Nat) (c : CPU) : ExecOut :=
  let rw := cpu_read_word c pc
  let pc2 := (pc + 2) % 65536
  .ok (if cpu_get_flag rw.2 FLAG_CARRY then rw.1 else pc2) rw.2

/-- JNC addr. -/
def exec_jnc (pc : Nat) (c : CPU) : ExecOut :=
  let rw := cpu_read_word c pc
  let pc2 := (pc + 2) % 65536
  .ok (if !(cpu_get_flag rw.2 FLAG_CARRY) then rw.1 else pc2) rw.2

/-- CALL addr: push the post-operand PC, then jump. -/
def exec_call (pc : Nat) (c : CPU) : ExecOut :=
  let rw := cpu_read_word c pc
  let pc2 := (pc + 2) % 65536
  .ok rw.1 (cpu_push rw.2 pc2)

/-- RET: pop the return address into PC. -/
def exec_ret (pc : Nat) (c : CPU) : ExecOut :=
  let pv := cpu_pop c
  .ok pv.1 pv.2

/-- IN r, port. -/
def exec_in (pc : Nat) (c : CPU) : ExecOut :=
  let rb := cpu_read_byte c pc
  let pc1 := (pc + 1) % 65536
  let rw := cpu_read_word rb.2 pc1
  let rv := cpu_read_byte rw.2 rw.1
  .ok ((pc1 + 2) % 65536) (cpu_set_reg rv.2 rb.1 rv.1)

/-- OUT port, r. -/
def exec_out (pc : Nat) (c : CPU) : ExecOut :=
  let rw := cpu_read_word c pc
  let pc2 := (pc + 2) % 65536
  let rb := cpu_read_byte rw.2 pc2
  .ok ((pc2 + 1) % 65536)
    (cpu_write_byte rb.2 rw.1 (cpu_get_reg rb.2 rb.1 &&& 0xFF))

/-- The opcode dispatch of the cpu_step switch; the default case is the
fatal unknown-opcode error carrying the uncommitted PC. -/
def cpu_exec (opcode pc : Nat) (c : CPU) : ExecOut :=
  if opcode = OP_NOP then .ok pc c
  else if opcode = OP_LOAD_IMM then exec_load_imm pc c
  else if opcode = OP_LOAD_MEM then exec_load_mem pc c
  else if opcode = OP_STORE then exec_store pc c
  else if opcode = OP_MOV then exec_mov pc c
  else if opcode = OP_PUSH then exec_push pc c
  else if opcode = OP_POP then exec_pop pc c
  else if opcode = OP_ADD then exec_add pc c
  else if opcode = OP_ADDI then exec_addi pc c
  else if opcode = OP_SUB then exec_sub pc c
  else if opcode = OP_SUBI then exec_subi pc c
  else if opcode = OP_MUL then exec_mul pc c
  else if opcode = OP_DIV then exec_div pc c
  else if opcode = OP_INC then exec_inc pc c
  else if opcode = OP_DEC then exec_dec pc c
  else if opcode = OP_AND then exec_and pc c
  else if opcode = OP_OR then exec_or pc c
  else if opcode = OP_XOR then exec_xor pc c
  else if opcode = OP_NOT then exec_not pc c
  else if opcode = OP_SHL then exec_shl pc c
  else if opcode = OP_SHR then exec_shr pc c
  else if opcode = OP_CMP then exec_cmp pc c
  else if opcode = OP_CMPI then exec_cmpi pc c
  else if opcode = OP_JMP then exec_jmp pc c
  else if opcode = OP_JZ then exec_jz pc c
  else if opcode = OP_JNZ then exec_jnz pc c
  else if opcode = OP_JC then exec_jc pc c
  else if opcode = OP_JNC then exec_jnc pc c
  else if opcode = OP_CALL then exec_call pc c
  else if opcode = OP_RET then exec_ret pc c
  else if opcode = OP_IN then exec_in pc c
  else if opcode = OP_OUT then exec_out pc c
  else if opcode = OP_HLT then .ok pc { c with halted := true, running := false }
  else .err (.UnknownOpcode opcode (c.regs REG_PC % 65536)) c

/-- cpu_step from cpu.c: halted check, opcode fetch (which advances the
local cursor and can itself touch a mapped port), timer tick, decode &
execute, then on success commit the local cursor to PC and increment
`cycles`.  Error paths return before the commit and set `halted`. -/
def cpu_step (c : CPU) : StepResult × CPU :=
  if c.halted then
    (.alreadyHalted, c)
  else
    let pc0 := c.regs REG_PC % 65536
    let fb := cpu_read_byte c pc0
    let c1 := timerBump fb.2
    match cpu_exec fb.1 ((pc0 + 1) % 65536) c1 with
    | .ok pcN cN => (.ok, { cN with regs := upd cN.regs REG_PC pcN, cycles := cN.cycles + 1 })
    | .err e cN => (.err e, { cN with halted := true })

/-- The while loop of cpu_run from cpu.c, with explicit fuel.  The loop
runs while `running && !halted` and breaks as soon as a step returns an
error. -/
def cpu_run_go : Nat → CPU → CPU
  | 0, c => c
  | Nat.succ fuel, c =>
    if c.running && !c.halted then
      let sr := cpu_step c
      match sr.1 with
      | .err _ => sr.2
      | _ => cpu_run_go fuel sr.2
    else c

/-- cpu_run from cpu.c: set `running := true, halted := false`, then
loop. -/
def cpu_run (fuel : Nat) (c : CPU) : CPU :=
  cpu_run_go fuel { c with running := true, halted := false }

/-- The memcpy of cpu_load_program: write the program bytes to
consecutive addresses (raw RAM, no port dispatch). -/
def writeBytes (m : Nat → Nat) (addr : Nat) : List Nat → (Nat → Nat)
  | [] => m
  | b :: rest => writeBytes (upd m addr (b % 256)) (addr + 1) rest

/-- cpu_load_program from cpu.c: fails (returns -1, touching nothing)
when `start_addr + size > MEMORY_SIZE`; otherwise copies the bytes and
sets PC to the start address. -/
def cpu_load_program (c : CPU) (program : List Nat) (start_addr : Nat) : Option CPU :=
  if start_addr + program.length > MEMORY_SIZE then none
  else some { c with
    memory := writeBytes c.memory start_addr program
    regs := upd c.regs REG_PC (start_addr % 65536) }

/-!
The assembler (src/assembler.c).  Source lines are lists of characters;
the output buffer is a list of bytes; the label table is an ordered list
of (name, address) pairs.
-/

/-- isspace from ctype.h, for the ASCII characters the assembler can
meet. -/
def isSpaceC (ch : Char) : Bool :=
  ch == ' ' || ch == '\t' || ch == '\n' || ch == '\x0b' || ch == '\x0c' || ch == '\r'

/-- toupper from ctype.h (ASCII). -/
def toupperC (ch : Char) : Char :=
  if 'a' ≤ ch ∧ ch ≤ 'z' then Char.ofNat (ch.toNat - 32) else ch

/-- Map toupper over a string. -/
def upperStr (s : List Char) : List Char :=
  s.map toupperC

/-- trim from assembler.c: strip leading and trailing whitespace. -/
def trimC (s : List Char) : List Char :=
  ((s.dropWhile isSpaceC).reverse.dropWhile isSpaceC).reverse

/-- strchr-based split: if `sep` occurs, the text before the first
occurrence and the text after it. -/
def splitAtFirst (sep : Char) (s : List Char) : Option (List Char × List Char) :=
  if s.any (fun ch => ch == sep) then
    some (s.takeWhile (fun ch => ch != sep), (s.dropWhile (fun ch => ch != sep)).drop 1)
  else none

/-- asm_parse_register from assembler.c: only the six exact names map to
register indices. -/
def asm_parse_register (s : List Char) : Option Nat :=
  if s = ['A'] then some REG_A
  else if s = ['B'] then some REG_B
  else if s = ['C'] then some REG_C
  else if s = ['D'] then some REG_D
  else if s = ['S', 'P'] then some REG_SP
  else if s = ['P', 'C'] then some REG_PC
  else none

/-- Digit value in the given base (10 or 16), as used by strtol. -/
def digitVal (base : Nat) (ch : Char) : Option Nat :=
  if '0' ≤ ch ∧ ch ≤ '9' ∧ ch.toNat - '0'.toNat < base then
    some (ch.toNat - '0'.toNat)
  else if base = 16 ∧ 'a' ≤ ch ∧ ch ≤ 'f' then
    some (ch.toNat - 'a'.toNat + 10)
  else if base = 16 ∧ 'A' ≤ ch ∧ ch ≤ 'F' then
    some (ch.toNat - 'A'.toNat + 10)
  else none

/-- Consume leading digits of the given base, returning the accumulated
value and the rest of the string. -/
def digitsVal (base : Nat) : List Char → Nat → Nat × List Char
  | [], acc => (acc, [])
  | ch :: rest, acc =>
    match digitVal base ch with
    | some d => digitsVal base rest (acc * base + d)
    | none => (acc, ch :: rest)

/-- strtol from stdlib.h as used by asm_parse_number (bases 10 and 16):
skip leading whitespace, optional sign, for base 16 an optional 0x/0X
prefix when followed by a hex digit, then digits.  Returns the value and
the end pointer (the unconsumed rest); with no digits at all the value
is 0 and the end pointer is the original string.  The C `long` is
modelled as an unbounded `Int` (the inputs the assembler meets fit). -/
def strtolC (base : Nat) (s : List Char) : Int × List Char :=
  let s1 := s.dropWhile isSpaceC
  let signAndRest : Bool × List Char :=
    match s1 with
    | '-' :: r => (true, r)
    | '+' :: r => (false, r)
    | _ => (false, s1)
  let s2 := signAndRest.2
  let s3 :=
    if base = 16 then
      match s2 with
      | '0' :: x :: r =>
        if (x == 'x' || x == 'X') &&
            (match r with
             | ch :: _ => (digitVal 16 ch).isSome
             | [] => false) then r
        else s2
      | _ => s2
    else s2
  match s3 with
  | ch :: _ =>
    if (digitVal base ch).isSome then
      let dv := digitsVal base s3 0
      (if signAndRest.1 then -(dv.1 : Int) else (dv.1 : Int), dv.2)
    else (0, s)
  | [] => (0, s)

/-- The `(uint16_t)num` cast at the end of asm_parse_number. -/
def toU16 (i : Int) : Nat :=
  (i % 65536).toNat

/-- asm_parse_number from assembler.c: choose base 16 when the string
starts with 0x/0X, else base 10; the parse fails when the character at
the end pointer is neither NUL (end of string) nor whitespace. -/
def asm_parse_number (s : List Char) : Option Nat :=
  let r :=
    match s with
    | '0' :: x :: _ =>
      if x == 'x' || x == 'X' then strtolC 16 s else strtolC 10 s
    | _ => strtolC 10 s
  match r.2 with
  | [] => some (toU16 r.1)
  | ch :: _ => if isSpaceC ch then some (toU16 r.1) else none

/-- The Assembler struct from assembler.h: output byte buffer, label
table (name, address), source line counter, sticky error flag. -/
structure Assembler where
  output : List Nat
  labels : List (List Char × Nat)
  current_line : Nat
  has_errors : Bool
deriving DecidableEq

/-- asm_init from assembler.c. -/
def asm_init : Assembler :=
  { output := [], labels := [], current_line := 0, has_errors := false }

/-- MAX_LABELS from assembler.h. -/
def MAX_LABELS : Nat := 256

/-- MAX_PROGRAM_SIZE from assembler.h. -/
def MAX_PROGRAM_SIZE : Nat := 0x10000

/-- asm_add_label from assembler.c: reject a full table and duplicate
names, else append; strncpy stores at most 63 characters of the name. -/
def asm_add_label (a : Assembler) (name : List Char) (address : Nat) : Option Assembler :=
  if a.labels.length ≥ MAX_LABELS then none
  else if a.labels.any (fun l => l.1 == name) then none
  else some { a with labels := a.labels ++ [(name.take 63, address)] }

/-- asm_find_label from assembler.c: first matching entry. -/
def asm_find_label (a : Assembler) (name : List Char) : Option Nat :=
  (a.labels.find? (fun l => l.1 == name)).map (fun l => l.2)

/-- emit_byte from assembler.c: append one byte when below the 64 KiB
cap, silently drop otherwise. -/
def emit_byte (a : Assembler) (b : Nat) : Assembler :=
  if a.output.length < MAX_PROGRAM_SIZE then { a with output := a.output ++ [b % 256] }
  else a

/-- emit_word from assembler.c: low byte then high byte. -/
def emit_word (a : Assembler) (w : Nat) : Assembler :=
  emit_byte (emit_byte a (w % 256)) (w / 256 % 256)

/-- The shared encoding of the two-register instructions
(MOV/ADD/SUB/MUL/DIV/AND/OR/XOR/CMP): opcode byte then the packed
`(r1 << 4) | r2` byte. -/
def encodeTwoReg (a : Assembler) (op : Nat) (arg1 arg2 : List Char) : Option Assembler :=
  match asm_parse_register arg1 with
  | none => none
  | some r1 =>
    match asm_parse_register arg2 with
    | none => none
    | some r2 => some (emit_byte (emit_byte a op) (r1 <<< 4 ||| r2))

/-- The shared encoding of reg+imm16 instructions (ADDI/SUBI/CMPI):
opcode, register byte, immediate word. -/
def encodeRegImm (a : Assembler) (op : Nat) (arg1 arg2 : List Char) : Option Assembler :=
  match asm_parse_register arg1 with
  | none => none
  | some reg =>
    match asm_parse_number arg2 with
    | none => none
    | some imm => some (emit_word (emit_byte (emit_byte a op) reg) imm)

/-- The shared encoding of one-register instructions
(PUSH/POP/INC/DEC/NOT): opcode then register byte. -/
def encodeOneReg (a : Assembler) (op : Nat) (arg1 : List Char) : Option Assembler :=
  match asm_parse_register arg1 with
  | none => none
  | some reg => some (emit_byte (emit_byte a op) reg)

/-- The instruction-encoding cascade of asm_parse_line from assembler.c
(everything after the mnemonic and the two arguments have been
isolated).  Each branch mirrors the corresponding `strcmp` branch. -/
def asm_encode_statement (a : Assembler) (instr arg1 arg2 : List Char) : Option Assembler :=
  if instr = "NOP".toList then some (emit_byte a OP_NOP)
  else if instr = "HLT".toList then some (emit_byte a OP_HLT)
  else if instr = "LOAD".toList then
    match asm_parse_register arg1 with
    | none => none
    | some reg =>
      match arg2 with
      | '[' :: rest =>
        if arg2.any (fun ch => ch == ']') then
          match asm_parse_number (rest.takeWhile (fun ch => ch != ']')) with
          | none => none
          | some addr => some (emit_word (emit_byte (emit_byte a OP_LOAD_MEM) reg) addr)
        else none
      | _ =>
        match asm_parse_number arg2 with
        | none => none
        | some imm => some (emit_word (emit_byte (emit_byte a OP_LOAD_IMM) reg) imm)
  else if instr = "STORE".toList then
    match arg1 with
    | '[' :: rest =>
      if arg1.any (fun ch => ch == ']') then
        match asm_parse_number (rest.takeWhile (fun ch => ch != ']')) with
        | none => none
        | some addr =>
          match asm_parse_register arg2 with
          | none => none
          | some reg => some (emit_byte (emit_word (emit_byte a OP_STORE) addr) reg)
      else none
    | _ => none
  else if instr = "MOV".toList then encodeTwoReg a OP_MOV arg1 arg2
  else if instr = "PUSH".toList then encodeOneReg a OP_PUSH arg1
  else if instr = "POP".toList then encodeOneReg a OP_POP arg1
  else if instr = "ADD".toList then encodeTwoReg a OP_ADD arg1 arg2
  else if instr = "ADDI".toList then encodeRegImm a OP_ADDI arg1 arg2
  else if instr = "SUB".toList then encodeTwoReg a OP_SUB arg1 arg2
  else if instr = "SUBI".toList then encodeRegImm a OP_SUBI arg1 arg2
  else if instr = "MUL".toList then encodeTwoReg a OP_MUL arg1 arg2
  else if instr = "DIV".toList then encodeTwoReg a OP_DIV arg1 arg2
  else if instr = "INC".toList then encodeOneReg a OP_INC arg1
  else if instr = "DEC".toList then encodeOneReg a OP_DEC arg1
  else if instr = "AND".toList then encodeTwoReg a OP_AND arg1 arg2
  else if instr = "OR".toList then encodeTwoReg a OP_OR arg1 arg2
  else if instr = "XOR".toList then encodeTwoReg a OP_XOR arg1 arg2
  else if instr = "NOT".toList then encodeOneReg a OP_NOT arg1
  else if instr = "SHL".toList ∨ instr = "SHR".toList then
    match asm_parse_register arg1 with
    | none => none
    | some reg =>
      match asm_parse_number arg2 with
      | none => none
      | some shiftAmt =>
        some (emit_byte (emit_byte (emit_byte a
          (if instr = "SHL".toList then OP_SHL else OP_SHR)) reg) (shiftAmt &&& 0xFF))
  else if instr = "CMP".toList then encodeTwoReg a OP_CMP arg1 arg2
  else if instr = "CMPI".toList then encodeRegImm a OP_CMPI arg1 arg2
  else if instr = "JMP".toList ∨ instr = "JZ".toList ∨ instr = "JNZ".toList ∨
      instr = "JC".toList ∨ instr = "JNC".toList ∨ instr = "CALL".toList then
    let op :=
      if instr = "JMP".toList then OP_JMP
      else if instr = "JZ".toList then OP_JZ
      else if instr = "JNZ".toList then OP_JNZ
      else if instr = "JC".toList then OP_JC
      else if instr = "JNC".toList then OP_JNC
      else OP_CALL
    match asm_parse_number arg1 with
    | some addr => some (emit_word (emit_byte a op) addr)
    | none =>
      match asm_find_label a arg1 with
      | none => none
      | some addr => some (emit_word (emit_byte a op) addr)
  else if instr = "RET".toList then some (emit_byte a OP_RET)
  else if instr = "OUT".toList then
    match asm_parse_number arg1 with
    | none => none
    | some port =>
      match asm_parse_register arg2 with
      | none => none
      | some reg => some (emit_byte (emit_word (emit_byte a OP_OUT) port) reg)
  else if instr = "IN".toList then
    match asm_parse_register arg1 with
    | none => none
    | some reg =>
      match asm_parse_number arg2 with
      | none => none
      | some port => some (emit_word (emit_byte (emit_byte a OP_IN) reg) port)
  else none

/-- The conditional upper-casing of arguments in asm_parse_line:
arguments whose first character is neither the character `0` nor `[`
are upper-cased (this preserves numeric literals and bracketed memory
references). -/
def condUpper (s : List Char) : List Char :=
  match s with
  | ch :: _ => if ch == '0' || ch == '[' then s else upperStr s
  | [] => []

/-- The mnemonic/argument splitting of asm_parse_line: split at the
first space into mnemonic and argument string, upper-case the mnemonic,
split the arguments at the first comma and trim and conditionally
upper-case each, then encode. -/
def asm_parse_statement (a : Assembler) (line : List Char) : Option Assembler :=
  let instrArgs :=
    match splitAtFirst ' ' line with
    | some p => (p.1, trimC p.2)
    | none => (line, [])
  let instr := upperStr instrArgs.1
  match splitAtFirst ',' instrArgs.2 with
  | some p => asm_encode_statement a instr (condUpper (trimC p.1)) (condUpper (trimC p.2))
  | none => asm_encode_statement a instr (condUpper (trimC instrArgs.2)) []

/-- asm_parse_line from assembler.c: trim, strip `;` and `#` comments,
trim again, handle an optional leading `LABEL:` (recorded at address
0x0100 + current output size), then parse the remaining statement if
any.  `none` models the -1 error return. -/
def asm_parse_line (a : Assembler) (line0 : List Char) : Option Assembler :=
  let line1 := trimC line0
  if line1 = [] then some a
  else
    let line2 := trimC ((line1.takeWhile (fun ch => ch != ';')).takeWhile (fun ch => ch != '#'))
    if line2 = [] then some a
    else
      match splitAtFirst ':' line2 with
      | some p =>
        let label := upperStr (trimC p.1)
        match asm_add_label a label (0x0100 + a.output.length) with
        | none => none
        | some a1 =>
          let rest := trimC p.2
          if rest = [] then some a1
          else asm_parse_statement a1 rest
      | none => asm_parse_statement a line2

/-- The line loop shared by asm_assemble_string and asm_assemble_file:
bump the line counter, parse the line, stop at the first error (the C
code also sets `has_errors` and returns -1; the failed context is not
observed further, so the error is modelled as `none`). -/
def asm_assemble_lines : Assembler → List (List Char) → Option Assembler
  | a, [] => some a
  | a, l :: ls =>
    match asm_parse_line { a with current_line := a.current_line + 1 } l with
    | none => none
    | some a1 => asm_assemble_lines a1 ls

/-! Frame and computation lemmas about the CPU operations. -/

theorem upd_same (f : Nat → Nat) (i v : Nat) : upd f i v i = v := by
  simp [upd]

theorem upd_ne (f : Nat → Nat) (i v j : Nat) (h : j ≠ i) : upd f i v j = f j := by
  simp [upd, h]

@[simp] theorem cpu_read_byte_regs (c : CPU) (a : Nat) : (cpu_read_byte c a).2.regs = c.regs := by
  unfold cpu_read_byte; (repeat' split) <;> rfl

@[simp] theorem cpu_read_byte_flags (c : CPU) (a : Nat) : (cpu_read_byte c a).2.flags = c.flags := by
  unfold cpu_read_byte; (repeat' split) <;> rfl

@[simp] theorem cpu_read_byte_memory (c : CPU) (a : Nat) : (cpu_read_byte c a).2.memory = c.memory := by
  unfold cpu_read_byte; (repeat' split) <;> rfl

@[simp] theorem cpu_read_byte_cycles (c : CPU) (a : Nat) : (cpu_read_byte c a).2.cycles = c.cycles := by
  unfold cpu_read_byte; (repeat' split) <;> rfl

@[simp] theorem cpu_read_byte_output (c : CPU) (a : Nat) : (cpu_read_byte c a).2.output = c.output := by
  unfold cpu_read_byte; (repeat' split) <;> rfl

@[simp] theorem cpu_read_byte_halted (c : CPU) (a : Nat) : (cpu_read_byte c a).2.halted = c.halted := by
  unfold cpu_read_byte; (repeat' split) <;> rfl

@[simp] theorem cpu_read_byte_running (c : CPU) (a : Nat) : (cpu_read_byte c a).2.running = c.running := by
  unfold cpu_read_byte; (repeat' split) <;> rfl

@[simp] theorem cpu_read_byte_timer_value (c : CPU) (a : Nat) :
    (cpu_read_byte c a).2.timer_value = c.timer_value := by
  unfold cpu_read_byte; (repeat' split) <;> rfl

@[simp] theorem cpu_read_byte_timer_enabled (c : CPU) (a : Nat) :
    (cpu_read_byte c a).2.timer_enabled = c.timer_enabled := by
  unfold cpu_read_byte; (repeat' split) <;> rfl

/-- A read below the I/O page is a pure RAM read. -/
theorem cpu_read_byte_ram (c : CPU) (a : Nat) (h : a < 65280) :
    cpu_read_byte c a = (c.memory a % 256, c) := by
  unfold cpu_read_byte PORT_STDIN PORT_TIMER_VALUE PORT_TIMER_CTRL
  rw [if_neg (by omega), if_neg (by omega), if_neg (by omega),
    Nat.mod_eq_of_lt (show a < 65536 by omega)]

theorem cpu_read_word_ram (c : CPU) (a : Nat) (h : a + 1 < 65280) :
    cpu_read_word c a = (c.memory (a + 1) % 256 * 256 + c.memory a % 256, c) := by
  simp only [cpu_read_word, cpu_read_byte_ram c a (by omega),
    Nat.mod_eq_of_lt (show a + 1 < 65536 by omega), cpu_read_byte_ram c (a + 1) (by omega)]

@[simp] theorem timerBump_regs (c : CPU) : (timerBump c).regs = c.regs := by
  unfold timerBump; split <;> rfl

@[simp] theorem timerBump_flags (c : CPU) : (timerBump c).flags = c.flags := by
  unfold timerBump; split <;> rfl

@[simp] theorem timerBump_memory (c : CPU) : (timerBump c).memory = c.memory := by
  unfold timerBump; split <;> rfl

@[simp] theorem timerBump_cycles (c : CPU) : (timerBump c).cycles = c.cycles := by
  unfold timerBump; split <;> rfl

@[simp] theorem timerBump_output (c : CPU) : (timerBump c).output = c.output := by
  unfold timerBump; split <;> rfl

@[simp] theorem timerBump_input (c : CPU) : (timerBump c).input = c.input := by
  unfold timerBump; split <;> rfl

@[simp] theorem timerBump_halted (c : CPU) : (timerBump c).halted = c.halted := by
  unfold timerBump; split <;> rfl

@[simp] theorem timerBump_running (c : CPU) : (timerBump c).running = c.running := by
  unfold timerBump; split <;> rfl

@[simp] theorem cpu_write_byte_regs (c : CPU) (a v : Nat) :
    (cpu_write_byte c a v).regs = c.regs := by
  unfold cpu_write_byte; (repeat' split) <;> rfl

@[simp] theorem cpu_write_byte_flags (c : CPU) (a v : Nat) :
    (cpu_write_byte c a v).flags = c.flags := by
  unfold cpu_write_byte; (repeat' split) <;> rfl

@[simp] theorem cpu_write_byte_cycles (c : CPU) (a v : Nat) :
    (cpu_write_byte c a v).cycles = c.cycles := by
  unfold cpu_write_byte; (repeat' split) <;> rfl

@[simp] theorem cpu_write_byte_halted (c : CPU) (a v : Nat) :
    (cpu_write_byte c a v).halted = c.halted := by
  unfold cpu_write_byte; (repeat' split) <;> rfl

@[simp] theorem cpu_write_byte_running (c : CPU) (a v : Nat) :
    (cpu_write_byte c a v).running = c.running := by
  unfold cpu_write_byte; (repeat' split) <;> rfl

@[simp] theorem cpu_write_byte_input (c : CPU) (a v : Nat) :
    (cpu_write_byte c a v).input = c.input := by
  unfold cpu_write_byte; (repeat' split) <;> rfl

/-- A write below the I/O page is a pure RAM write. -/
theorem cpu_write_byte_ram (c : CPU) (a v : Nat) (h : a < 65280) :
    cpu_write_byte c a v = { c with memory := upd c.memory a (v % 256) } := by
  unfold cpu_write_byte PORT_STDOUT PORT_TIMER_CTRL PORT_TIMER_VALUE
  rw [if_neg (by omega), if_neg (by omega), if_neg (by omega), Nat.mod_eq_of_lt (by omega)]

@[simp] theorem cpu_set_reg_flags (c : CPU) (r v : Nat) :
    (cpu_set_reg c r v).flags = c.flags := by
  unfold cpu_set_reg; split <;> rfl

@[simp] theorem cpu_set_reg_memory (c : CPU) (r v : Nat) :
    (cpu_set_reg c r v).memory = c.memory := by
  unfold cpu_set_reg; split <;> rfl

@[simp] theorem cpu_set_reg_cycles (c : CPU) (r v : Nat) :
    (cpu_set_reg c r v).cycles = c.cycles := by
  unfold cpu_set_reg; split <;> rfl

@[simp] theorem cpu_set_reg_halted (c : CPU) (r v : Nat) :
    (cpu_set_reg c r v).halted = c.halted := by
  unfold cpu_set_reg; split <;> rfl

@[simp] theorem cpu_set_reg_running (c : CPU) (r v : Nat) :
    (cpu_set_reg c r v).running = c.running := by
  unfold cpu_set_reg; split <;> rfl

@[simp] theorem cpu_set_reg_output (c : CPU) (r v : Nat) :
    (cpu_set_reg c r v).output = c.output := by
  unfold cpu_set_reg; split <;> rfl

@[simp] theorem cpu_set_reg_input (c : CPU) (r v : Nat) :
    (cpu_set_reg c r v).input = c.input := by
  unfold cpu_set_reg; split <;> rfl

@[simp] theorem cpu_set_flag_regs (c : CPU) (f : Nat) (b : Bool) :
    (cpu_set_flag c f b).regs = c.regs := by
  unfold cpu_set_flag; split <;> rfl

@[simp] theorem cpu_set_flag_memory (c : CPU) (f : Nat) (b : Bool) :
    (cpu_set_flag c f b).memory = c.memory := by
  unfold cpu_set_flag; split <;> rfl

@[simp] theorem cpu_set_flag_cycles (c : CPU) (f : Nat) (b : Bool) :
    (cpu_set_flag c f b).cycles = c.cycles := by
  unfold cpu_set_flag; split <;> rfl

@[simp] theorem cpu_set_flag_halted (c : CPU) (f : Nat) (b : Bool) :
    (cpu_set_flag c f b).halted = c.halted := by
  unfold cpu_set_flag; split <;> rfl

@[simp] theorem cpu_set_flag_running (c : CPU) (f : Nat) (b : Bool) :
    (cpu_set_flag c f b).running = c.running := by
  unfold cpu_set_flag; split <;> rfl

@[simp] theorem cpu_set_flag_output (c : CPU) (f : Nat) (b : Bool) :
    (cpu_set_flag c f b).output = c.output := by
  unfold cpu_set_flag; split <;> rfl

@[simp] theorem cpu_set_flag_input (c : CPU) (f : Nat) (b : Bool) :
    (cpu_set_flag c f b).input = c.input := by
  unfold cpu_set_flag; split <;> rfl

@[simp] theorem cpu_set_flags_arithmetic_regs (c : CPU) (res : Nat) (cf ov : Bool) :
    (cpu_set_flags_arithmetic c res cf ov).regs = c.regs := by
  unfold cpu_set_flags_arithmetic; simp

@[simp] theorem cpu_set_flags_arithmetic_memory (c : CPU) (res : Nat) (cf ov : Bool) :
    (cpu_set_flags_arithmetic c res cf ov).memory = c.memory := by
  unfold cpu_set_flags_arithmetic; simp

@[simp] theorem cpu_set_flags_arithmetic_cycles (c : CPU) (res : Nat) (cf ov : Bool) :
    (cpu_set_flags_arithmetic c res cf ov).cycles = c.cycles := by
  unfold cpu_set_flags_arithmetic; simp

@[simp] theorem cpu_set_flags_arithmetic_halted (c : CPU) (res : Nat) (cf ov : Bool) :
    (cpu_set_flags_arithmetic c res cf ov).halted = c.halted := by
  unfold cpu_set_flags_arithmetic; simp

@[simp] theorem cpu_set_flags_arithmetic_running (c : CPU) (res : Nat) (cf ov : Bool) :
    (cpu_set_flags_arithmetic c res cf ov).running = c.running := by
  unfold cpu_set_flags_arithmetic; simp

@[simp] theorem cpu_set_flags_arithmetic_output (c : CPU) (res : Nat) (cf ov : Bool) :
    (cpu_set_flags_arithmetic c res cf ov).output = c.output := by
  unfold cpu_set_flags_arithmetic; simp

/-! Register access lemmas. -/

theorem cpu_get_reg_lt (c : CPU) (r : Nat) : cpu_get_reg c r < 65536 := by
  unfold cpu_get_reg; split
  · exact Nat.mod_lt _ (by omega)
  · omega

theorem cpu_get_reg_invalid (c : CPU) (r : Nat) (h : ¬ r < 6) : cpu_get_reg c r = 0 := by
  unfold cpu_get_reg; rw [if_neg h]

theorem cpu_set_reg_invalid (c : CPU) (r v : Nat) (h : ¬ r < 6) : cpu_set_reg c r v = c := by
  unfold cpu_set_reg; rw [if_neg h]

theorem cpu_set_reg_regs_same (c : CPU) (r v : Nat) (h : r < 6) :
    (cpu_set_reg c r v).regs r = v % 65536 := by
  unfold cpu_set_reg; rw [if_pos h]; exact upd_same _ _ _

theorem cpu_set_reg_regs_ne (c : CPU) (r v j : Nat) (h : j ≠ r) :
    (cpu_set_reg c r v).regs j = c.regs j := by
  unfold cpu_set_reg; split
  · exact upd_ne _ _ _ _ h
  · rfl

theorem cpu_get_reg_set_reg_same (c : CPU) (r v : Nat) (h : r < 6) :
    cpu_get_reg (cpu_set_reg c r v) r = v % 65536 := by
  unfold cpu_get_reg
  rw [if_pos h, cpu_set_reg_regs_same c r v h]
  omega

theorem cpu_get_reg_set_reg_ne (c : CPU) (r v r2 : Nat) (h : r2 ≠ r) :
    cpu_get_reg (cpu_set_reg c r v) r2 = cpu_get_reg c r2 := by
  unfold cpu_get_reg
  rw [cpu_set_reg_regs_ne c r v r2 h]

/-- Writing a register other than the one a `cpu_get_reg` reads, through
an arbitrary state, leaves that read unchanged. -/
theorem cpu_get_reg_timerBump (c : CPU) (r : Nat) :
    cpu_get_reg (timerBump c) r = cpu_get_reg c r := by
  unfold cpu_get_reg; rw [timerBump_regs]

theorem cpu_get_flag_timerBump (c : CPU) (f : Nat) :
    cpu_get_flag (timerBump c) f = cpu_get_flag c f := by
  unfold cpu_get_flag; rw [timerBump_flags]

theorem cpu_get_flag_set_reg (c : CPU) (r v f : Nat) :
    cpu_get_flag (cpu_set_reg c r v) f = cpu_get_flag c f := by
  unfold cpu_get_flag; rw [cpu_set_reg_flags]

/-! Bit-level helper lemmas for flags and operand decoding. -/

theorem and_two_pow_bne (y k : Nat) : (y &&& 2 ^ k != 0) = y.testBit k := by
  rw [Nat.and_two_pow]
  cases h : y.testBit k <;> simp [Nat.pos_iff_ne_zero, Nat.two_pow_pos]

theorem cpu_get_flag_set_flag_other (c : CPU) (m n : Nat) (b : Bool)
    (hOr : m &&& n = 0) (hAnd : (255 ^^^ m) &&& n = n) :
    cpu_get_flag (cpu_set_flag c m b) n = cpu_get_flag c n := by
  unfold cpu_set_flag
  cases b
  · rw [if_neg (by simp)]
    show (c.flags &&& (255 ^^^ m) &&& n != 0) = _
    rw [Nat.and_assoc, hAnd]
    rfl
  · rw [if_pos rfl]
    show ((c.flags ||| m) &&& n != 0) = _
    rw [Nat.and_distrib_right, hOr, Nat.or_zero]
    rfl

theorem cpu_get_flag_set_flag_same (c : CPU) (m : Nat) (b : Bool)
    (hm : m &&& m = m) (hnz : m ≠ 0) (hAnd : (255 ^^^ m) &&& m = 0) :
    cpu_get_flag (cpu_set_flag c m b) m = b := by
  unfold cpu_set_flag
  cases b
  · rw [if_neg (by simp)]
    show (c.flags &&& (255 ^^^ m) &&& m != 0) = false
    rw [Nat.and_assoc, hAnd, Nat.and_zero]
    simp
  · rw [if_pos rfl]
    show ((c.flags ||| m) &&& m != 0) = true
    rw [Nat.and_distrib_right, hm]
    simp only [bne_iff_ne, ne_eq]
    intro hcon
    obtain ⟨k, hk⟩ := Nat.ne_zero_implies_bit_true hnz
    have hbit : (c.flags &&& m ||| m).testBit k = true := by
      rw [Nat.testBit_lor, hk]
      simp
    rw [hcon] at hbit
    simp [Nat.zero_testBit] at hbit

@[simp] theorem cpu_get_flag_arith_zero (c : CPU) (res : Nat) (cf ov : Bool) :
    cpu_get_flag (cpu_set_flags_arithmetic c res cf ov) FLAG_ZERO = (res % 65536 == 0) := by
  unfold cpu_set_flags_arithmetic FLAG_ZERO FLAG_CARRY FLAG_NEGATIVE FLAG_OVERFLOW
  simp only []
  rw [cpu_get_flag_set_flag_other _ 16 128 _ (by decide) (by decide),
    cpu_get_flag_set_flag_other _ 64 128 _ (by decide) (by decide),
    cpu_get_flag_set_flag_other _ 32 128 _ (by decide) (by decide),
    cpu_get_flag_set_flag_same _ 128 _ (by decide) (by decide) (by decide)]

@[simp] theorem cpu_get_flag_arith_negative (c : CPU) (res : Nat) (cf ov : Bool) :
    cpu_get_flag (cpu_set_flags_arithmetic c res cf ov) FLAG_NEGATIVE =
      (res % 65536 &&& 0x8000 != 0) := by
  unfold cpu_set_flags_arithmetic FLAG_ZERO FLAG_CARRY FLAG_NEGATIVE FLAG_OVERFLOW
  simp only []
  rw [cpu_get_flag_set_flag_other _ 16 32 _ (by decide) (by decide),
    cpu_get_flag_set_flag_other _ 64 32 _ (by decide) (by decide),
    cpu_get_flag_set_flag_same _ 32 _ (by decide) (by decide) (by decide)]

@[simp] theorem cpu_get_flag_arith_carry (c : CPU) (res : Nat) (cf ov : Bool) :
    cpu_get_flag (cpu_set_flags_arithmetic c res cf ov) FLAG_CARRY = cf := by
  unfold cpu_set_flags_arithmetic FLAG_ZERO FLAG_CARRY FLAG_NEGATIVE FLAG_OVERFLOW
  simp only []
  rw [cpu_get_flag_set_flag_other _ 16 64 _ (by decide) (by decide),
    cpu_get_flag_set_flag_same _ 64 _ (by decide) (by decide) (by decide)]

@[simp] theorem cpu_get_flag_arith_overflow (c : CPU) (res : Nat) (cf ov : Bool) :
    cpu_get_flag (cpu_set_flags_arithmetic c res cf ov) FLAG_OVERFLOW = ov := by
  unfold cpu_set_flags_arithmetic FLAG_ZERO FLAG_CARRY FLAG_NEGATIVE FLAG_OVERFLOW
  simp only []
  rw [cpu_get_flag_set_flag_same _ 16 _ (by decide) (by decide) (by decide)]

/-- `x &&& 0xFFFF` is reduction modulo 2^16. -/
theorem and_ffff (x : Nat) : x &&& 65535 = x % 65536 := by
  have h := Nat.and_pow_two_sub_one_eq_mod x 16
  norm_num at h
  exact h

/-- `x &&& 0x0F` is reduction modulo 2^4. -/
theorem and_0f (x : Nat) : x &&& 15 = x % 16 := by
  have h := Nat.and_pow_two_sub_one_eq_mod x 4
  norm_num at h
  exact h

/-- High nibble of a packed register byte. -/
theorem nibble_hi (r1 r2 : Nat) (h1 : r1 < 16) (h2 : r2 < 16) :
    (r1 * 16 + r2) >>> 4 &&& 15 = r1 := by
  rw [Nat.shiftRight_eq_div_pow, and_0f]
  norm_num
  omega

/-- Low nibble of a packed register byte. -/
theorem nibble_lo (r1 r2 : Nat) (h2 : r2 < 16) :
    (r1 * 16 + r2) &&& 15 = r2 := by
  rw [and_0f]
  omega

/-! Lemmas about program loading. -/

theorem writeBytes_outside (m : Nat → Nat) (p : List Nat) (addr a : Nat)
    (h : a < addr ∨ addr + p.length ≤ a) : writeBytes m addr p a = m a := by
  induction p generalizing m addr with
  | nil => rfl
  | cons b rest ih =>
    simp only [writeBytes]
    rw [ih (upd m addr (b % 256)) (addr + 1) (by simp only [List.length_cons] at h; omega)]
    exact upd_ne _ _ _ _ (by simp only [List.length_cons] at h; omega)

theorem writeBytes_inside (m : Nat → Nat) (p : List Nat) (addr i : Nat)
    (h : i < p.length) : writeBytes m addr p (addr + i) = p.getD i 0 % 256 := by
  induction p generalizing m addr i with
  | nil => simp at h
  | cons b rest ih =>
    cases i with
    | zero =>
      simp only [writeBytes, List.getD_cons_zero, Nat.add_zero]
      rw [writeBytes_outside _ _ _ _ (by omega)]
      exact upd_same m addr (b % 256)
    | succ j =>
      simp only [writeBytes, List.getD_cons_succ]
      rw [show addr + (j + 1) = (addr + 1) + j by omega]
      exact ih (upd m addr (b % 256)) (addr + 1) j
        (by simp only [List.length_cons] at h; omega)

/-- C8: `cpu_load_program` succeeds exactly when `start + size ≤ 0x10000`
(so `start + size = 0x10000` still succeeds and one more byte fails); on
success the program bytes are copied to memory at `start`, all other
memory is untouched, PC is set to `start`, and nothing else changes; on
failure it returns the error without touching the state. -/
theorem load_program_spec (c : CPU) (program : List Nat) (start : Nat)
    (hstart : start < 65536) :
    ((cpu_load_program c program start).isSome ↔ start + program.length ≤ 65536) ∧
    (∀ c', cpu_load_program c program start = some c' →
      (∀ i, i < program.length → c'.memory (start + i) = program.getD i 0 % 256) ∧
      (∀ a, a < start ∨ start + program.length ≤ a → c'.memory a = c.memory a) ∧
      cpu_get_reg c' REG_PC = start ∧
      (∀ r, r ≠ REG_PC → c'.regs r = c.regs r) ∧
      c'.flags = c.flags ∧ c'.cycles = c.cycles ∧ c'.halted = c.halted ∧
      c'.running = c.running ∧ c'.output = c.output) ∧
    (start + program.length > 65536 → cpu_load_program c program start = none) := by
  unfold cpu_load_program MEMORY_SIZE
  refine ⟨?_, ?_, ?_⟩
  · split <;> rename_i hcond
    · simp
      omega
    · simp
      omega
  · intro c' hc'
    split at hc'
    · exact absurd hc' (by simp)
    · injection hc' with hc'
      subst hc'
      refine ⟨?_, ?_, ?_, ?_, rfl, rfl, rfl, rfl, rfl⟩
      · intro i hi
        exact writeBytes_inside c.memory program start i hi
      · intro a ha
        exact writeBytes_outside c.memory program start a ha
      · show cpu_get_reg _ 5 = start
        unfold cpu_get_reg
        rw [if_pos (by omega)]
        show upd c.regs 5 (start % 65536) 5 % 65536 = start
        rw [upd_same]
        omega
      · intro r hr
        show upd c.regs 5 (start % 65536) r = c.regs r
        exact upd_ne _ _ _ _ (by unfold REG_PC at hr; omega)
  · intro hbig
    rw [if_pos (by omega)]

/-- C8 witness: a one-byte program at 0xFFFF (start + size = 0x10000)
loads, and a two-byte program there fails. -/
theorem load_program_spec_witness :
    (cpu_load_program (cpu_init []) [7] 65535).isSome ∧
    cpu_load_program (cpu_init []) [7, 8] 65535 = none :=
  ⟨((load_program_spec (cpu_init []) [7] 65535 (by decide)).1).mpr (by decide),
   (load_program_spec (cpu_init []) [7, 8] 65535 (by decide)).2.2 (by decide)⟩

/-- C6: for every register index above 5, `cpu_get_reg` reads 0 and
`cpu_set_reg` leaves the whole CPU state unchanged. -/
theorem invalid_register_access (c : CPU) (r x : Nat) (h : r > 5) :
    cpu_get_reg c r = 0 ∧ cpu_set_reg c r x = c :=
  ⟨cpu_get_reg_invalid c r (by omega), cpu_set_reg_invalid c r x (by omega)⟩

/-- C6 witness at register index 6 on the reset state. -/
theorem invalid_register_access_witness :
    6 > 5 ∧ (cpu_get_reg (cpu_init []) 6 = 0 ∧ cpu_set_reg (cpu_init []) 6 99 = cpu_init []) :=
  ⟨by decide, invalid_register_access (cpu_init []) 6 99 (by decide)⟩

/-! Access lemmas through the PC/cycles commit at the end of cpu_step. -/

theorem cpu_get_reg_commit (X : CPU) (pcN r : Nat) (h : r ≠ REG_PC) :
    cpu_get_reg { X with regs := upd X.regs REG_PC pcN, cycles := X.cycles + 1 } r
      = cpu_get_reg X r := by
  unfold cpu_get_reg
  split <;> try rfl
  show upd X.regs REG_PC pcN r % 65536 = _
  rw [upd_ne _ _ _ _ h]

theorem cpu_get_reg_commit_pc (X : CPU) (pcN : Nat) (h : pcN < 65536) :
    cpu_get_reg { X with regs := upd X.regs REG_PC pcN, cycles := X.cycles + 1 } REG_PC
      = pcN := by
  unfold cpu_get_reg
  rw [if_pos (by unfold REG_PC; omega)]
  show upd X.regs REG_PC pcN REG_PC % 65536 = pcN
  rw [upd_same]
  exact Nat.mod_eq_of_lt h

theorem cpu_get_flag_commit (X : CPU) (pcN f : Nat) :
    cpu_get_flag { X with regs := upd X.regs REG_PC pcN, cycles := X.cycles + 1 } f
      = cpu_get_flag X f := rfl

theorem cpu_get_reg_set_flags (X : CPU) (res : Nat) (cf ov : Bool) (r : Nat) :
    cpu_get_reg (cpu_set_flags_arithmetic X res cf ov) r = cpu_get_reg X r := by
  unfold cpu_get_reg
  rw [cpu_set_flags_arithmetic_regs]

/-! The two DIV step lemmas: divisor zero (fatal) and divisor nonzero. -/

/-- A DIV instruction fetched from RAM with a zero divisor register:
cpu_step reports DivideByZero carrying the PC of the DIV instruction and
halts, committing nothing (only the timer may have ticked). -/
theorem div_zero_step (c : CPU) (pc0 r1 r2 : Nat)
    (hpc : pc0 = c.regs REG_PC % 65536)
    (hram : pc0 + 1 < 65280)
    (hop : c.memory pc0 = OP_DIV)
    (hbyte : c.memory (pc0 + 1) = r1 * 16 + r2)
    (hr1 : r1 < 16) (hr2 : r2 < 16)
    (hdiv : cpu_get_reg c r2 = 0)
    (hhalt : c.halted = false) :
    cpu_step c = (.err (.DivideByZero pc0), { timerBump c with halted := true }) := by
  have hfetch : cpu_read_byte c pc0 = (OP_DIV, c) := by
    rw [cpu_read_byte_ram c pc0 (by omega), hop]
    norm_num [OP_DIV]
  have hbyteread : cpu_read_byte (timerBump c) (pc0 + 1) = (r1 * 16 + r2, timerBump c) := by
    rw [cpu_read_byte_ram _ _ (by omega), timerBump_memory, hbyte,
      Nat.mod_eq_of_lt (by omega)]
  unfold cpu_step
  rw [← hpc, hhalt]
  simp only [Bool.false_eq_true, if_false, hfetch]
  rw [Nat.mod_eq_of_lt (show pc0 + 1 < 65536 by omega)]
  unfold cpu_exec exec_load_imm exec_load_mem exec_store exec_mov exec_push exec_pop
    exec_add exec_addi exec_sub exec_subi exec_mul exec_div exec_inc exec_dec exec_and
    exec_or exec_xor exec_not exec_shl exec_shr exec_cmp exec_cmpi exec_jmp exec_jz
    exec_jnz exec_jc exec_jnc exec_call exec_ret exec_in exec_out
  simp only [OP_NOP, OP_LOAD_IMM, OP_LOAD_MEM, OP_STORE, OP_MOV, OP_PUSH, OP_POP, OP_ADD,
    OP_ADDI, OP_SUB, OP_SUBI, OP_MUL, OP_DIV, OP_INC, OP_DEC, OP_AND, OP_OR, OP_XOR, OP_NOT,
    OP_SHL, OP_SHR, OP_CMP, OP_CMPI, OP_JMP, OP_JZ, OP_JNZ, OP_JC, OP_JNC, OP_CALL, OP_RET,
    OP_IN, OP_OUT, OP_HLT]
  norm_num
  rw [hbyteread]
  simp only [nibble_hi r1 r2 hr1 hr2, nibble_lo r1 r2 hr2, cpu_get_reg_timerBump, hdiv]
  rw [if_pos trivial]
  simp [← hpc]

/-- A DIV instruction fetched from RAM with a nonzero divisor register:
the full success state of cpu_step. -/
theorem div_nonzero_step (c : CPU) (pc0 r1 r2 : Nat)
    (hpc : pc0 = c.regs REG_PC % 65536)
    (hram : pc0 + 1 < 65280)
    (hop : c.memory pc0 = OP_DIV)
    (hbyte : c.memory (pc0 + 1) = r1 * 16 + r2)
    (hr1 : r1 < 16) (hr2 : r2 < 16)
    (hdiv : cpu_get_reg c r2 ≠ 0)
    (hhalt : c.halted = false) :
    cpu_step c =
      (.ok,
        let q := cpu_get_reg c r1 / cpu_get_reg c r2
        let X := cpu_set_flags_arithmetic
          (cpu_set_reg (cpu_set_reg (timerBump c) r1 q) r2
            (cpu_get_reg c r1 % cpu_get_reg c r2)) q false false
        { X with regs := upd X.regs REG_PC ((pc0 + 2) % 65536), cycles := X.cycles + 1 }) := by
  have hfetch : cpu_read_byte c pc0 = (OP_DIV, c) := by
    rw [cpu_read_byte_ram c pc0 (by omega), hop]
    norm_num [OP_DIV]
  have hbyteread : cpu_read_byte (timerBump c) (pc0 + 1) = (r1 * 16 + r2, timerBump c) := by
    rw [cpu_read_byte_ram _ _ (by omega), timerBump_memory, hbyte,
      Nat.mod_eq_of_lt (by omega)]
  unfold cpu_step
  rw [← hpc, hhalt]
  simp only [Bool.false_eq_true, if_false, hfetch]
  rw [Nat.mod_eq_of_lt (show pc0 + 1 < 65536 by omega)]
  unfold cpu_exec exec_load_imm exec_load_mem exec_store exec_mov exec_push exec_pop
    exec_add exec_addi exec_sub exec_subi exec_mul exec_div exec_inc exec_dec exec_and
    exec_or exec_xor exec_not exec_shl exec_shr exec_cmp exec_cmpi exec_jmp exec_jz
    exec_jnz exec_jc exec_jnc exec_call exec_ret exec_in exec_out
  simp only [OP_NOP, OP_LOAD_IMM, OP_LOAD_MEM, OP_STORE, OP_MOV, OP_PUSH, OP_POP, OP_ADD,
    OP_ADDI, OP_SUB, OP_SUBI, OP_MUL, OP_DIV, OP_INC, OP_DEC, OP_AND, OP_OR, OP_XOR, OP_NOT,
    OP_SHL, OP_SHR, OP_CMP, OP_CMPI, OP_JMP, OP_JZ, OP_JNZ, OP_JC, OP_JNC, OP_CALL, OP_RET,
    OP_IN, OP_OUT, OP_HLT]
  norm_num
  rw [hbyteread]
  simp only [nibble_hi r1 r2 hr1 hr2, nibble_lo r1 r2 hr2, cpu_get_reg_timerBump]
  rw [if_neg hdiv, (by omega : pc0 + 1 + 1 = pc0 + 2)]
  simp

/-! Concrete test states for the DIV claims. -/

/-- DIV A,B at PC = 0x0100 with A = 17, B = 5. -/
def divTest : CPU :=
  { regs := upd (upd (upd (fun _ => 0) REG_A 17) REG_B 5) REG_PC 256
    flags := 0
    memory := fun a => if a = 256 then 0x15 else if a = 257 then 0x01 else 0
    running := false
    halted := false
    cycles := 0
    timer_value := 0
    timer_enabled := false
    input := []
    output := [] }

/-- DIV A,A at PC = 0x0100 with A = 1 (aliased operands). -/
def divAliasTest : CPU :=
  { regs := upd (upd (fun _ => 0) REG_A 1) REG_PC 256
    flags := 0
    memory := fun a => if a = 256 then 0x15 else 0
    running := false
    halted := false
    cycles := 0
    timer_value := 0
    timer_enabled := false
    input := []
    output := [] }

/-- DIV PC,B at PC = 0x0100 with B = 1 (destination is PC). -/
def divPcTest : CPU :=
  { regs := upd (upd (fun _ => 0) REG_B 1) REG_PC 256
    flags := 0
    memory := fun a => if a = 256 then 0x15 else if a = 257 then 0x51 else 0
    running := false
    halted := false
    cycles := 0
    timer_value := 0
    timer_enabled := false
    input := []
    output := [] }

/-- DIV A,B at PC = 0x0100 with A = 10, B = 0 (zero divisor). -/
def divZeroTest : CPU :=
  { regs := upd (upd (fun _ => 0) REG_A 10) REG_PC 256
    flags := 0
    memory := fun a => if a = 256 then 0x15 else if a = 257 then 0x01 else 0
    running := false
    halted := false
    cycles := 0
    timer_value := 0
    timer_enabled := false
    input := []
    output := [] }

/-- C2: a DIV step whose divisor register is zero is fatal: it returns a
DivideByZero error carrying the PC of the DIV instruction, sets
`halted`, and the run() loop stops after that step no matter how much
fuel remains. -/
theorem div_by_zero_fatal (c : CPU) (pc0 r1 r2 : Nat)
    (hpc : pc0 = c.regs REG_PC % 65536)
    (hram : pc0 + 1 < 65280)
    (hop : c.memory pc0 = OP_DIV)
    (hbyte : c.memory (pc0 + 1) = r1 * 16 + r2)
    (hr1 : r1 < 16) (hr2 : r2 < 16)
    (hdiv : cpu_get_reg c r2 = 0)
    (hhalt : c.halted = false) :
    cpu_step c = (.err (.DivideByZero pc0), { timerBump c with halted := true }) ∧
    (cpu_step c).2.halted = true ∧
    (∀ fuel, cpu_run (fuel + 1) c =
      { timerBump { c with running := true, halted := false } with halted := true }) := by
  have h1 := div_zero_step c pc0 r1 r2 hpc hram hop hbyte hr1 hr2 hdiv hhalt
  refine ⟨h1, by rw [h1], ?_⟩
  intro fuel
  have h2 := div_zero_step { c with running := true, halted := false } pc0 r1 r2 hpc hram
    hop hbyte hr1 hr2 hdiv rfl
  unfold cpu_run
  show cpu_run_go (fuel + 1) _ = _
  simp only [cpu_run_go, h2]
  rfl

/-- C2 witness: DIV A,B with B = 0 at PC = 0x0100. -/
theorem div_by_zero_fatal_witness :
    cpu_step divZeroTest = (.err (.DivideByZero 256), { timerBump divZeroTest with halted := true }) ∧
    (cpu_step divZeroTest).2.halted = true ∧
    (∀ fuel, cpu_run (fuel + 1) divZeroTest =
      { timerBump { divZeroTest with running := true, halted := false } with halted := true }) :=
  div_by_zero_fatal divZeroTest 256 REG_A REG_B (by decide) (by decide) (by decide) (by decide)
    (by decide) (by decide) (by decide) (by decide)

/-- C1 (amended): a DIV step with a nonzero divisor, on two distinct
registers neither of which is PC, writes the quotient to the destination
register and the remainder to the source register, and computes the
flags from the quotient with C = O = 0 and Z, N from the quotient
value. -/
theorem div_updates_registers_and_flags (c : CPU) (pc0 r1 r2 : Nat)
    (hpc : pc0 = c.regs REG_PC % 65536)
    (hram : pc0 + 1 < 65280)
    (hop : c.memory pc0 = OP_DIV)
    (hbyte : c.memory (pc0 + 1) = r1 * 16 + r2)
    (hr1 : r1 < 6) (hr2 : r2 < 6)
    (hne : r1 ≠ r2) (hnpc1 : r1 ≠ REG_PC) (hnpc2 : r2 ≠ REG_PC)
    (hdiv : cpu_get_reg c r2 ≠ 0)
    (hhalt : c.halted = false) :
    (cpu_step c).1 = .ok ∧
    cpu_get_reg (cpu_step c).2 r1 = cpu_get_reg c r1 / cpu_get_reg c r2 ∧
    cpu_get_reg (cpu_step c).2 r2 = cpu_get_reg c r1 % cpu_get_reg c r2 ∧
    cpu_get_flag (cpu_step c).2 FLAG_CARRY = false ∧
    cpu_get_flag (cpu_step c).2 FLAG_OVERFLOW = false ∧
    cpu_get_flag (cpu_step c).2 FLAG_ZERO = (cpu_get_reg c r1 / cpu_get_reg c r2 == 0) ∧
    cpu_get_flag (cpu_step c).2 FLAG_NEGATIVE
      = (cpu_get_reg c r1 / cpu_get_reg c r2 &&& 0x8000 != 0) := by
  have hstep := div_nonzero_step c pc0 r1 r2 hpc hram hop hbyte (by omega) (by omega) hdiv hhalt
  rw [hstep]
  have hqlt : cpu_get_reg c r1 / cpu_get_reg c r2 < 65536 :=
    Nat.lt_of_le_of_lt (Nat.div_le_self _ _) (cpu_get_reg_lt c r1)
  have hrlt : cpu_get_reg c r1 % cpu_get_reg c r2 < 65536 :=
    Nat.lt_of_le_of_lt (Nat.mod_le _ _) (cpu_get_reg_lt c r1)
  refine ⟨rfl, ?_, ?_, ?_, ?_, ?_, ?_⟩
  · rw [cpu_get_reg_commit _ _ _ hnpc1, cpu_get_reg_set_flags,
      cpu_get_reg_set_reg_ne _ _ _ _ hne, cpu_get_reg_set_reg_same _ _ _ hr1,
      Nat.mod_eq_of_lt hqlt]
  · rw [cpu_get_reg_commit _ _ _ hnpc2, cpu_get_reg_set_flags,
      cpu_get_reg_set_reg_same _ _ _ hr2, Nat.mod_eq_of_lt hrlt]
  · rw [cpu_get_flag_commit, cpu_get_flag_arith_carry]
  · rw [cpu_get_flag_commit, cpu_get_flag_arith_overflow]
  · rw [cpu_get_flag_commit, cpu_get_flag_arith_zero, Nat.mod_eq_of_lt hqlt]
  · rw [cpu_get_flag_commit, cpu_get_flag_arith_negative, Nat.mod_eq_of_lt hqlt]

/-- C1 witness: DIV A,B with A = 17, B = 5 at PC = 0x0100. -/
theorem div_updates_registers_and_flags_witness :
    (cpu_step divTest).1 = .ok ∧
    cpu_get_reg (cpu_step divTest).2 REG_A = cpu_get_reg divTest REG_A / cpu_get_reg divTest REG_B ∧
    cpu_get_reg (cpu_step divTest).2 REG_B = cpu_get_reg divTest REG_A % cpu_get_reg divTest REG_B ∧
    cpu_get_flag (cpu_step divTest).2 FLAG_CARRY = false ∧
    cpu_get_flag (cpu_step divTest).2 FLAG_OVERFLOW = false ∧
    cpu_get_flag (cpu_step divTest).2 FLAG_ZERO
      = (cpu_get_reg divTest REG_A / cpu_get_reg divTest REG_B == 0) ∧
    cpu_get_flag (cpu_step divTest).2 FLAG_NEGATIVE
      = (cpu_get_reg divTest REG_A / cpu_get_reg divTest REG_B &&& 0x8000 != 0) :=
  div_updates_registers_and_flags divTest 256 REG_A REG_B (by decide) (by decide) (by decide)
    (by decide) (by decide) (by decide) (by decide) (by decide) (by decide) (by decide) (by decide)

/-- C1 counterexample: with aliased operands (DIV A,A) the destination
does not end up holding the quotient (the remainder write clobbers it),
and with the destination PC (DIV PC,B) the committed PC is the next
instruction, not the quotient. -/
theorem div_claim_counterexample :
    cpu_get_reg (cpu_step divAliasTest).2 REG_A ≠
      cpu_get_reg divAliasTest REG_A / cpu_get_reg divAliasTest REG_A ∧
    cpu_get_reg (cpu_step divPcTest).2 REG_PC ≠
      cpu_get_reg divPcTest REG_PC / cpu_get_reg divPcTest REG_B := by
  decide

/-! The ADD/ADDI step lemmas and the signed-overflow bit lemma. -/

theorem and_bit15_ne_iff (x : Nat) : (x &&& 32768 ≠ 0) ↔ x.testBit 15 = true := by
  have h := and_two_pow_bne x 15
  norm_num at h
  rw [← h]
  simp [bne_iff_ne]

/-- The overflow test of ADD computed on the untruncated 32-bit sum
agrees with the same formula computed on the 16-bit truncated result:
only bit 15 matters, and it is unchanged by reduction mod 2^16. -/
theorem overflow_mod_16 (a b s : Nat) :
    ((a ^^^ s) &&& (b ^^^ s) &&& 32768 ≠ 0) ↔
    ((a ^^^ s % 65536) &&& (b ^^^ s % 65536) &&& 32768 ≠ 0) := by
  rw [and_bit15_ne_iff, and_bit15_ne_iff, Nat.testBit_land, Nat.testBit_land,
    Nat.testBit_xor, Nat.testBit_xor, Nat.testBit_xor, Nat.testBit_xor,
    show (65536 : Nat) = 2 ^ 16 by norm_num, Nat.testBit_mod_two_pow]
  norm_num

/-- An ADD instruction fetched from RAM: the full success state of
cpu_step. -/
theorem add_step (c : CPU) (pc0 r1 r2 : Nat)
    (hpc : pc0 = c.regs REG_PC % 65536)
    (hram : pc0 + 1 < 65280)
    (hop : c.memory pc0 = OP_ADD)
    (hbyte : c.memory (pc0 + 1) = r1 * 16 + r2)
    (hr1 : r1 < 16) (hr2 : r2 < 16)
    (hhalt : c.halted = false) :
    cpu_step c =
      (.ok,
        let a := cpu_get_reg c r1
        let b := cpu_get_reg c r2
        let X := cpu_set_flags_arithmetic
          (cpu_set_reg (timerBump c) r1 ((a + b) &&& 0xFFFF)) (a + b)
          (decide (a + b > 0xFFFF))
          (decide ((a ^^^ (a + b)) &&& (b ^^^ (a + b)) &&& 0x8000 ≠ 0))
        { X with regs := upd X.regs REG_PC ((pc0 + 2) % 65536), cycles := X.cycles + 1 }) := by
  have hfetch : cpu_read_byte c pc0 = (OP_ADD, c) := by
    rw [cpu_read_byte_ram c pc0 (by omega), hop]
    norm_num [OP_ADD]
  have hbyteread : cpu_read_byte (timerBump c) (pc0 + 1) = (r1 * 16 + r2, timerBump c) := by
    rw [cpu_read_byte_ram _ _ (by omega), timerBump_memory, hbyte,
      Nat.mod_eq_of_lt (by omega)]
  unfold cpu_step
  rw [← hpc, hhalt]
  simp only [Bool.false_eq_true, if_false, hfetch]
  rw [Nat.mod_eq_of_lt (show pc0 + 1 < 65536 by omega)]
  unfold cpu_exec exec_load_imm exec_load_mem exec_store exec_mov exec_push exec_pop
    exec_add exec_addi exec_sub exec_subi exec_mul exec_div exec_inc exec_dec exec_and
    exec_or exec_xor exec_not exec_shl exec_shr exec_cmp exec_cmpi exec_jmp exec_jz
    exec_jnz exec_jc exec_jnc exec_call exec_ret exec_in exec_out
  simp only [OP_NOP, OP_LOAD_IMM, OP_LOAD_MEM, OP_STORE, OP_MOV, OP_PUSH, OP_POP, OP_ADD,
    OP_ADDI, OP_SUB, OP_SUBI, OP_MUL, OP_DIV, OP_INC, OP_DEC, OP_AND, OP_OR, OP_XOR, OP_NOT,
    OP_SHL, OP_SHR, OP_CMP, OP_CMPI, OP_JMP, OP_JZ, OP_JNZ, OP_JC, OP_JNC, OP_CALL, OP_RET,
    OP_IN, OP_OUT, OP_HLT]
  norm_num
  rw [hbyteread]
  simp only [nibble_hi r1 r2 hr1 hr2, nibble_lo r1 r2 hr2, cpu_get_reg_timerBump]
  simp

/-- An ADDI instruction fetched from RAM: the full success state of
cpu_step. -/
theorem addi_step (c : CPU) (pc0 r : Nat)
    (hpc : pc0 = c.regs REG_PC % 65536)
    (hram : pc0 + 3 < 65280)
    (hop : c.memory pc0 = OP_ADDI)
    (hbyte : c.memory (pc0 + 1) = r)
    (hr : r < 16)
    (hhalt : c.halted = false) :
    cpu_step c =
      (.ok,
        let a := cpu_get_reg c r
        let imm := c.memory (pc0 + 3) % 256 * 256 + c.memory (pc0 + 2) % 256
        let X := cpu_set_flags_arithmetic
          (cpu_set_reg (timerBump c) r ((a + imm) &&& 0xFFFF)) (a + imm)
          (decide (a + imm > 0xFFFF))
          (decide ((a ^^^ (a + imm)) &&& (imm ^^^ (a + imm)) &&& 0x8000 ≠ 0))
        { X with regs := upd X.regs REG_PC ((pc0 + 4) % 65536), cycles := X.cycles + 1 }) := by
  have hfetch : cpu_read_byte c pc0 = (OP_ADDI, c) := by
    rw [cpu_read_byte_ram c pc0 (by omega), hop]
    norm_num [OP_ADDI]
  have hbyteread : cpu_read_byte (timerBump c) (pc0 + 1) = (r, timerBump c) := by
    rw [cpu_read_byte_ram _ _ (by omega), timerBump_memory, hbyte,
      Nat.mod_eq_of_lt (by omega)]
  have hwordread : cpu_read_word (timerBump c) (pc0 + 2) =
      (c.memory (pc0 + 3) % 256 * 256 + c.memory (pc0 + 2) % 256, timerBump c) := by
    rw [cpu_read_word_ram _ _ (by omega), timerBump_memory]
  unfold cpu_step
  rw [← hpc, hhalt]
  simp only [Bool.false_eq_true, if_false, hfetch]
  rw [Nat.mod_eq_of_lt (show pc0 + 1 < 65536 by omega)]
  unfold cpu_exec exec_load_imm exec_load_mem exec_store exec_mov exec_push exec_pop
    exec_add exec_addi exec_sub exec_subi exec_mul exec_div exec_inc exec_dec exec_and
    exec_or exec_xor exec_not exec_shl exec_shr exec_cmp exec_cmpi exec_jmp exec_jz
    exec_jnz exec_jc exec_jnc exec_call exec_ret exec_in exec_out
  simp only [OP_NOP, OP_LOAD_IMM, OP_LOAD_MEM, OP_STORE, OP_MOV, OP_PUSH, OP_POP, OP_ADD,
    OP_ADDI, OP_SUB, OP_SUBI, OP_MUL, OP_DIV, OP_INC, OP_DEC, OP_AND, OP_OR, OP_XOR, OP_NOT,
    OP_SHL, OP_SHR, OP_CMP, OP_CMPI, OP_JMP, OP_JZ, OP_JNZ, OP_JC, OP_JNC, OP_CALL, OP_RET,
    OP_IN, OP_OUT, OP_HLT]
  norm_num
  rw [hbyteread]
  rw [(by omega : pc0 + 1 + 1 = pc0 + 2),
    Nat.mod_eq_of_lt (show pc0 + 2 < 65536 by omega), hwordread]
  simp only [cpu_get_reg_timerBump]
  simp

/-! Concrete test states for the ADD/ADDI claim. -/

/-- ADD A,B at PC = 0x0100 with A = 0xFFFF, B = 1. -/
def addTest1 : CPU :=
  { regs := upd (upd (upd (fun _ => 0) REG_A 0xFFFF) REG_B 1) REG_PC 256
    flags := 0
    memory := fun a => if a = 256 then 0x10 else if a = 257 then 0x01 else 0
    running := false
    halted := false
    cycles := 0
    timer_value := 0
    timer_enabled := false
    input := []
    output := [] }

/-- ADD A,B at PC = 0x0100 with A = 0x7FFF, B = 1. -/
def addTest2 : CPU :=
  { regs := upd (upd (upd (fun _ => 0) REG_A 0x7FFF) REG_B 1) REG_PC 256
    flags := 0
    memory := fun a => if a = 256 then 0x10 else if a = 257 then 0x01 else 0
    running := false
    halted := false
    cycles := 0
    timer_value := 0
    timer_enabled := false
    input := []
    output := [] }

/-- ADDI A,1 at PC = 0x0100 with A = 0xFFFF. -/
def addiTest : CPU :=
  { regs := upd (upd (fun _ => 0) REG_A 0xFFFF) REG_PC 256
    flags := 0
    memory := fun a => if a = 256 then 0x11 else if a = 258 then 1 else 0
    running := false
    halted := false
    cycles := 0
    timer_value := 0
    timer_enabled := false
    input := []
    output := [] }

/-- C3: the two boundary additions behave as specified (0xFFFF + 1 gives
0x0000 with Z=1, C=1; 0x7FFF + 1 gives 0x8000 with N=1, O=1, C=0), and in
general an ADD or ADDI step writes (a+b) mod 2^16 to the destination,
sets C iff a + b > 0xFFFF, and sets O iff
((a^result) & (b^result) & 0x8000) != 0 on the truncated result. -/
theorem add_semantics :
    (cpu_get_reg (cpu_step addTest1).2 REG_A = 0x0000 ∧
      cpu_get_flag (cpu_step addTest1).2 FLAG_ZERO = true ∧
      cpu_get_flag (cpu_step addTest1).2 FLAG_CARRY = true) ∧
    (cpu_get_reg (cpu_step addTest2).2 REG_A = 0x8000 ∧
      cpu_get_flag (cpu_step addTest2).2 FLAG_NEGATIVE = true ∧
      cpu_get_flag (cpu_step addTest2).2 FLAG_OVERFLOW = true ∧
      cpu_get_flag (cpu_step addTest2).2 FLAG_CARRY = false) ∧
    (∀ (c : CPU) (pc0 r1 r2 : Nat),
      pc0 = c.regs REG_PC % 65536 → pc0 + 1 < 65280 →
      c.memory pc0 = OP_ADD → c.memory (pc0 + 1) = r1 * 16 + r2 →
      r1 < 6 → r1 ≠ REG_PC → r2 < 16 → c.halted = false →
      (cpu_step c).1 = .ok ∧
      cpu_get_reg (cpu_step c).2 r1 = (cpu_get_reg c r1 + cpu_get_reg c r2) % 65536 ∧
      cpu_get_flag (cpu_step c).2 FLAG_CARRY
        = decide (cpu_get_reg c r1 + cpu_get_reg c r2 > 0xFFFF) ∧
      cpu_get_flag (cpu_step c).2 FLAG_OVERFLOW
        = decide ((cpu_get_reg c r1 ^^^ (cpu_get_reg c r1 + cpu_get_reg c r2) % 65536) &&&
            (cpu_get_reg c r2 ^^^ (cpu_get_reg c r1 + cpu_get_reg c r2) % 65536) &&&
            0x8000 ≠ 0)) ∧
    (∀ (c : CPU) (pc0 r : Nat),
      pc0 = c.regs REG_PC % 65536 → pc0 + 3 < 65280 →
      c.memory pc0 = OP_ADDI → c.memory (pc0 + 1) = r →
      r < 6 → r ≠ REG_PC → c.halted = false →
      (cpu_step c).1 = .ok ∧
      cpu_get_reg (cpu_step c).2 r
        = (cpu_get_reg c r + (c.memory (pc0 + 3) % 256 * 256 + c.memory (pc0 + 2) % 256)) % 65536 ∧
      cpu_get_flag (cpu_step c).2 FLAG_CARRY
        = decide (cpu_get_reg c r + (c.memory (pc0 + 3) % 256 * 256 + c.memory (pc0 + 2) % 256) > 0xFFFF) ∧
      cpu_get_flag (cpu_step c).2 FLAG_OVERFLOW
        = decide ((cpu_get_reg c r ^^^
              (cpu_get_reg c r + (c.memory (pc0 + 3) % 256 * 256 + c.memory (pc0 + 2) % 256)) % 65536) &&&
            ((c.memory (pc0 + 3) % 256 * 256 + c.memory (pc0 + 2) % 256) ^^^
              (cpu_get_reg c r + (c.memory (pc0 + 3) % 256 * 256 + c.memory (pc0 + 2) % 256)) % 65536) &&&
            0x8000 ≠ 0)) := by
  refine ⟨by decide, by decide, ?_, ?_⟩
  · intro c pc0 r1 r2 hpc hram hop hbyte hr1 hnpc hr2 hhalt
    have hstep := add_step c pc0 r1 r2 hpc hram hop hbyte (by omega) hr2 hhalt
    rw [hstep]
    refine ⟨rfl, ?_, ?_, ?_⟩
    · rw [cpu_get_reg_commit _ _ _ hnpc, cpu_get_reg_set_flags,
        cpu_get_reg_set_reg_same _ _ _ hr1, and_ffff]
      omega
    · rw [cpu_get_flag_commit, cpu_get_flag_arith_carry]
    · rw [cpu_get_flag_commit, cpu_get_flag_arith_overflow]
      exact decide_eq_decide.mpr
        (overflow_mod_16 (cpu_get_reg c r1) (cpu_get_reg c r2) _)
  · intro c pc0 r hpc hram hop hbyte hr hnpc hhalt
    have hstep := addi_step c pc0 r hpc hram hop hbyte (by omega) hhalt
    rw [hstep]
    refine ⟨rfl, ?_, ?_, ?_⟩
    · rw [cpu_get_reg_commit _ _ _ hnpc, cpu_get_reg_set_flags,
        cpu_get_reg_set_reg_same _ _ _ hr, and_ffff]
      omega
    · rw [cpu_get_flag_commit, cpu_get_flag_arith_carry]
    · rw [cpu_get_flag_commit, cpu_get_flag_arith_overflow]
      exact decide_eq_decide.mpr
        (overflow_mod_16 (cpu_get_reg c r)
          (c.memory (pc0 + 3) % 256 * 256 + c.memory (pc0 + 2) % 256) _)

/-- C3 witness: the general ADD part applied to the 0xFFFF + 1 state and
the general ADDI part applied to an ADDI A,1 state with A = 0xFFFF. -/
theorem add_semantics_witness :
    ((cpu_step addTest1).1 = .ok ∧
      cpu_get_reg (cpu_step addTest1).2 REG_A
        = (cpu_get_reg addTest1 REG_A + cpu_get_reg addTest1 REG_B) % 65536 ∧
      cpu_get_flag (cpu_step addTest1).2 FLAG_CARRY
        = decide (cpu_get_reg addTest1 REG_A + cpu_get_reg addTest1 REG_B > 0xFFFF) ∧
      cpu_get_flag (cpu_step addTest1).2 FLAG_OVERFLOW
        = decide ((cpu_get_reg addTest1 REG_A ^^^
              (cpu_get_reg addTest1 REG_A + cpu_get_reg addTest1 REG_B) % 65536) &&&
            (cpu_get_reg addTest1 REG_B ^^^
              (cpu_get_reg addTest1 REG_A + cpu_get_reg addTest1 REG_B) % 65536) &&&
            0x8000 ≠ 0)) ∧
    ((cpu_step addiTest).1 = .ok ∧
      cpu_get_reg (cpu_step addiTest).2 REG_A
        = (cpu_get_reg addiTest REG_A +
            (addiTest.memory 259 % 256 * 256 + addiTest.memory 258 % 256)) % 65536 ∧
      cpu_get_flag (cpu_step addiTest).2 FLAG_CARRY
        = decide (cpu_get_reg addiTest REG_A +
            (addiTest.memory 259 % 256 * 256 + addiTest.memory 258 % 256) > 0xFFFF) ∧
      cpu_get_flag (cpu_step addiTest).2 FLAG_OVERFLOW
        = decide ((cpu_get_reg addiTest REG_A ^^^
              (cpu_get_reg addiTest REG_A +
                (addiTest.memory 259 % 256 * 256 + addiTest.memory 258 % 256)) % 65536) &&&
            ((addiTest.memory 259 % 256 * 256 + addiTest.memory 258 % 256) ^^^
              (cpu_get_reg addiTest REG_A +
                (addiTest.memory 259 % 256 * 256 + addiTest.memory 258 % 256)) % 65536) &&&
            0x8000 ≠ 0)) :=
  ⟨add_semantics.2.2.1 addTest1 256 REG_A REG_B (by decide) (by decide) (by decide) (by decide)
      (by decide) (by decide) (by decide) (by decide),
    add_semantics.2.2.2 addiTest 256 REG_A (by decide) (by decide) (by decide) (by decide)
      (by decide) (by decide) (by decide)⟩

/-! Conditional-jump step lemmas (JZ/JNZ/JC/JNC). -/

theorem jz_step (c : CPU) (pc0 : Nat)
    (hpc : pc0 = c.regs REG_PC % 65536)
    (hram : pc0 + 2 < 65280)
    (hop : c.memory pc0 = OP_JZ)
    (hhalt : c.halted = false) :
    cpu_step c =
      (.ok,
        let addr := c.memory (pc0 + 2) % 256 * 256 + c.memory (pc0 + 1) % 256
        let X := timerBump c
        { X with
          regs := upd X.regs REG_PC (if cpu_get_flag c FLAG_ZERO then addr else (pc0 + 3) % 65536)
          cycles := X.cycles + 1 }) := by
  have hfetch : cpu_read_byte c pc0 = (OP_JZ, c) := by
    rw [cpu_read_byte_ram c pc0 (by omega), hop]
    norm_num [OP_JZ]
  have hword : cpu_read_word (timerBump c) (pc0 + 1)
      = (c.memory (pc0 + 2) % 256 * 256 + c.memory (pc0 + 1) % 256, timerBump c) := by
    rw [cpu_read_word_ram _ _ (by omega), timerBump_memory]
  unfold cpu_step
  rw [← hpc, hhalt]
  simp only [Bool.false_eq_true, if_false, hfetch]
  rw [Nat.mod_eq_of_lt (show pc0 + 1 < 65536 by omega)]
  unfold cpu_exec exec_load_imm exec_load_mem exec_store exec_mov exec_push exec_pop
    exec_add exec_addi exec_sub exec_subi exec_mul exec_div exec_inc exec_dec exec_and
    exec_or exec_xor exec_not exec_shl exec_shr exec_cmp exec_cmpi exec_jmp exec_jz
    exec_jnz exec_jc exec_jnc exec_call exec_ret exec_in exec_out
  simp only [OP_NOP, OP_LOAD_IMM, OP_LOAD_MEM, OP_STORE, OP_MOV, OP_PUSH, OP_POP, OP_ADD,
    OP_ADDI, OP_SUB, OP_SUBI, OP_MUL, OP_DIV, OP_INC, OP_DEC, OP_AND, OP_OR, OP_XOR, OP_NOT,
    OP_SHL, OP_SHR, OP_CMP, OP_CMPI, OP_JMP, OP_JZ, OP_JNZ, OP_JC, OP_JNC, OP_CALL, OP_RET,
    OP_IN, OP_OUT, OP_HLT]
  norm_num
  rw [hword, (by omega : pc0 + 1 + 2 = pc0 + 3)]
  simp only [cpu_get_flag_timerBump]
  simp

theorem jnz_step (c : CPU) (pc0 : Nat)
    (hpc : pc0 = c.regs REG_PC % 65536)
    (hram : pc0 + 2 < 65280)
    (hop : c.memory pc0 = OP_JNZ)
    (hhalt : c.halted = false) :
    cpu_step c =
      (.ok,
        let addr := c.memory (pc0 + 2) % 256 * 256 + c.memory (pc0 + 1) % 256
        let X := timerBump c
        { X with
          regs := upd X.regs REG_PC
            (if !(cpu_get_flag c FLAG_ZERO) then addr else (pc0 + 3) % 65536)
          cycles := X.cycles + 1 }) := by
  have hfetch : cpu_read_byte c pc0 = (OP_JNZ, c) := by
    rw [cpu_read_byte_ram c pc0 (by omega), hop]
    norm_num [OP_JNZ]
  have hword : cpu_read_word (timerBump c) (pc0 + 1)
      = (c.memory (pc0 + 2) % 256 * 256 + c.memory (pc0 + 1) % 256, timerBump c) := by
    rw [cpu_read_word_ram _ _ (by omega), timerBump_memory]
  unfold cpu_step
  rw [← hpc, hhalt]
  simp only [Bool.false_eq_true, if_false, hfetch]
  rw [Nat.mod_eq_of_lt (show pc0 + 1 < 65536 by omega)]
  unfold cpu_exec exec_load_imm exec_load_mem exec_store exec_mov exec_push exec_pop
    exec_add exec_addi exec_sub exec_subi exec_mul exec_div exec_inc exec_dec exec_and
    exec_or exec_xor exec_not exec_shl exec_shr exec_cmp exec_cmpi exec_jmp exec_jz
    exec_jnz exec_jc exec_jnc exec_call exec_ret exec_in exec_out
  simp only [OP_NOP, OP_LOAD_IMM, OP_LOAD_MEM, OP_STORE, OP_MOV, OP_PUSH, OP_POP, OP_ADD,
    OP_ADDI, OP_SUB, OP_SUBI, OP_MUL, OP_DIV, OP_INC, OP_DEC, OP_AND, OP_OR, OP_XOR, OP_NOT,
    OP_SHL, OP_SHR, OP_CMP, OP_CMPI, OP_JMP, OP_JZ, OP_JNZ, OP_JC, OP_JNC, OP_CALL, OP_RET,
    OP_IN, OP_OUT, OP_HLT]
  norm_num
  rw [hword, (by omega : pc0 + 1 + 2 = pc0 + 3)]
  simp only [cpu_get_flag_timerBump]
  simp

theorem jc_step (c : CPU) (pc0 : Nat)
    (hpc : pc0 = c.regs REG_PC % 65536)
    (hram : pc0 + 2 < 65280)
    (hop : c.memory pc0 = OP_JC)
    (hhalt : c.halted = false) :
    cpu_step c =
      (.ok,
        let addr := c.memory (pc0 + 2) % 256 * 256 + c.memory (pc0 + 1) % 256
        let X := timerBump c
        { X with
          regs := upd X.regs REG_PC (if cpu_get_flag c FLAG_CARRY then addr else (pc0 + 3) % 65536)
          cycles := X.cycles + 1 }) := by
  have hfetch : cpu_read_byte c pc0 = (OP_JC, c) := by
    rw [cpu_read_byte_ram c pc0 (by omega), hop]
    norm_num [OP_JC]
  have hword : cpu_read_word (timerBump c) (pc0 + 1)
      = (c.memory (pc0 + 2) % 256 * 256 + c.memory (pc0 + 1) % 256, timerBump c) := by
    rw [cpu_read_word_ram _ _ (by omega), timerBump_memory]
  unfold cpu_step
  rw [← hpc, hhalt]
  simp only [Bool.false_eq_true, if_false, hfetch]
  rw [Nat.mod_eq_of_lt (show pc0 + 1 < 65536 by omega)]
  unfold cpu_exec exec_load_imm exec_load_mem exec_store exec_mov exec_push exec_pop
    exec_add exec_addi exec_sub exec_subi exec_mul exec_div exec_inc exec_dec exec_and
    exec_or exec_xor exec_not exec_shl exec_shr exec_cmp exec_cmpi exec_jmp exec_jz
    exec_jnz exec_jc exec_jnc exec_call exec_ret exec_in exec_out
  simp only [OP_NOP, OP_LOAD_IMM, OP_LOAD_MEM, OP_STORE, OP_MOV, OP_PUSH, OP_POP, OP_ADD,
    OP_ADDI, OP_SUB, OP_SUBI, OP_MUL, OP_DIV, OP_INC, OP_DEC, OP_AND, OP_OR, OP_XOR, OP_NOT,
    OP_SHL, OP_SHR, OP_CMP, OP_CMPI, OP_JMP, OP_JZ, OP_JNZ, OP_JC, OP_JNC, OP_CALL, OP_RET,
    OP_IN, OP_OUT, OP_HLT]
  norm_num
  rw [hword, (by omega : pc0 + 1 + 2 = pc0 + 3)]
  simp only [cpu_get_flag_timerBump]
  simp

theorem jnc_step (c : CPU) (pc0 : Nat)
    (hpc : pc0 = c.regs REG_PC % 65536)
    (hram : pc0 + 2 < 65280)
    (hop : c.memory pc0 = OP_JNC)
    (hhalt : c.halted = false) :
    cpu_step c =
      (.ok,
        let addr := c.memory (pc0 + 2) % 256 * 256 + c.memory (pc0 + 1) % 256
        let X := timerBump c
        { X with
          regs := upd X.regs REG_PC
            (if !(cpu_get_flag c FLAG_CARRY) then addr else (pc0 + 3) % 65536)
          cycles := X.cycles + 1 }) := by
  have hfetch : cpu_read_byte c pc0 = (OP_JNC, c) := by
    rw [cpu_read_byte_ram c pc0 (by omega), hop]
    norm_num [OP_JNC]
  have hword : cpu_read_word (timerBump c) (pc0 + 1)
      = (c.memory (pc0 + 2) % 256 * 256 + c.memory (pc0 + 1) % 256, timerBump c) := by
    rw [cpu_read_word_ram _ _ (by omega), timerBump_memory]
  unfold cpu_step
  rw [← hpc, hhalt]
  simp only [Bool.false_eq_true, if_false, hfetch]
  rw [Nat.mod_eq_of_lt (show pc0 + 1 < 65536 by omega)]
  unfold cpu_exec exec_load_imm exec_load_mem exec_store exec_mov exec_push exec_pop
    exec_add exec_addi exec_sub exec_subi exec_mul exec_div exec_inc exec_dec exec_and
    exec_or exec_xor exec_not exec_shl exec_shr exec_cmp exec_cmpi exec_jmp exec_jz
    exec_jnz exec_jc exec_jnc exec_call exec_ret exec_in exec_out
  simp only [OP_NOP, OP_LOAD_IMM, OP_LOAD_MEM, OP_STORE, OP_MOV, OP_PUSH, OP_POP, OP_ADD,
    OP_ADDI, OP_SUB, OP_SUBI, OP_MUL, OP_DIV, OP_INC, OP_DEC, OP_AND, OP_OR, OP_XOR, OP_NOT,
    OP_SHL, OP_SHR, OP_CMP, OP_CMPI, OP_JMP, OP_JZ, OP_JNZ, OP_JC, OP_JNC, OP_CALL, OP_RET,
    OP_IN, OP_OUT, OP_HLT]
  norm_num
  rw [hword, (by omega : pc0 + 1 + 2 = pc0 + 3)]
  simp only [cpu_get_flag_timerBump]
  simp

/-- JZ 0x0200 at PC = 0x0100 with all flags clear (not taken). -/
def jzTest : CPU :=
  { regs := upd (fun _ => 0) REG_PC 256
    flags := 0
    memory := fun a => if a = 256 then 0x41 else if a = 258 then 2 else 0
    running := false
    halted := false
    cycles := 0
    timer_value := 0
    timer_enabled := false
    input := []
    output := [] }

/-- JC 0x0200 at PC = 0x0100 with the carry flag set (taken). -/
def jcTest : CPU :=
  { regs := upd (fun _ => 0) REG_PC 256
    flags := 0x40
    memory := fun a => if a = 256 then 0x43 else if a = 258 then 2 else 0
    running := false
    halted := false
    cycles := 0
    timer_value := 0
    timer_enabled := false
    input := []
    output := [] }

/-- C4: every conditional jump step succeeds, and its committed PC is the
operand address if and only if the named flag condition holds (Z set for
JZ, Z clear for JNZ, C set for JC, C clear for JNC); otherwise PC is left
at the byte after the 2-byte operand (opcode address + 3). -/
theorem cond_jump_semantics (c : CPU) (pc0 op flagMask : Nat) (pol : Bool)
    (hsel : (op, flagMask, pol) ∈
      [(OP_JZ, FLAG_ZERO, true), (OP_JNZ, FLAG_ZERO, false),
       (OP_JC, FLAG_CARRY, true), (OP_JNC, FLAG_CARRY, false)])
    (hpc : pc0 = c.regs REG_PC % 65536)
    (hram : pc0 + 2 < 65280)
    (hop : c.memory pc0 = op)
    (hhalt : c.halted = false) :
    (cpu_step c).1 = .ok ∧
    cpu_get_reg (cpu_step c).2 REG_PC =
      (if cpu_get_flag c flagMask = pol
       then c.memory (pc0 + 2) % 256 * 256 + c.memory (pc0 + 1) % 256
       else (pc0 + 3) % 65536) := by
  simp only [List.mem_cons, List.not_mem_nil, or_false, Prod.mk.injEq] at hsel
  rcases hsel with ⟨h1, h2, h3⟩ | ⟨h1, h2, h3⟩ | ⟨h1, h2, h3⟩ | ⟨h1, h2, h3⟩ <;>
    subst h1 <;> subst h2 <;> subst h3
  · rw [jz_step c pc0 hpc hram hop hhalt]
    refine ⟨rfl, ?_⟩
    rw [cpu_get_reg_commit_pc _ _ (by split <;> omega)]
  · rw [jnz_step c pc0 hpc hram hop hhalt]
    refine ⟨rfl, ?_⟩
    rw [cpu_get_reg_commit_pc _ _ (by split <;> omega)]
    cases hb : cpu_get_flag c FLAG_ZERO <;> simp [hb]
  · rw [jc_step c pc0 hpc hram hop hhalt]
    refine ⟨rfl, ?_⟩
    rw [cpu_get_reg_commit_pc _ _ (by split <;> omega)]
  · rw [jnc_step c pc0 hpc hram hop hhalt]
    refine ⟨rfl, ?_⟩
    rw [cpu_get_reg_commit_pc _ _ (by split <;> omega)]
    cases hb : cpu_get_flag c FLAG_CARRY <;> simp [hb]

/-- C4 witness: a not-taken JZ falls through to PC = 0x0103, and a taken
JC jumps to the operand address. -/
theorem cond_jump_semantics_witness :
    ((cpu_step jzTest).1 = .ok ∧
      cpu_get_reg (cpu_step jzTest).2 REG_PC =
        (if cpu_get_flag jzTest FLAG_ZERO = true
         then jzTest.memory 258 % 256 * 256 + jzTest.memory 257 % 256
         else (256 + 3) % 65536)) ∧
    ((cpu_step jcTest).1 = .ok ∧
      cpu_get_reg (cpu_step jcTest).2 REG_PC =
        (if cpu_get_flag jcTest FLAG_CARRY = true
         then jcTest.memory 258 % 256 * 256 + jcTest.memory 257 % 256
         else (256 + 3) % 65536)) :=
  ⟨cond_jump_semantics jzTest 256 OP_JZ FLAG_ZERO true (by decide) (by decide) (by decide)
      (by decide) (by decide),
    cond_jump_semantics jcTest 256 OP_JC FLAG_CARRY true (by decide) (by decide) (by decide)
      (by decide) (by decide)⟩

/-! PUSH/POP round trip (the OP_PUSH / OP_POP semantic actions). -/

/-- The register-level composition of PUSH r followed by POP r2: the
semantic actions of the OP_PUSH and OP_POP cases of cpu_step (push the
value read from register r, then pop into register r2). -/
def push_pop (c : CPU) (r r2 : Nat) : CPU :=
  let c1 := cpu_push c (cpu_get_reg c r)
  let pv := cpu_pop c1
  cpu_set_reg pv.2 r2 pv.1

theorem cpu_write_byte_ram2 (c : CPU) (a v : Nat) (h0 : a ≠ 65280) (h2 : a ≠ 65282)
    (h3 : a ≠ 65283) (hlt : a < 65536) :
    cpu_write_byte c a v = { c with memory := upd c.memory a (v % 256) } := by
  unfold cpu_write_byte PORT_STDOUT PORT_TIMER_CTRL PORT_TIMER_VALUE
  rw [if_neg h0, if_neg h2, if_neg h3, Nat.mod_eq_of_lt hlt]

theorem cpu_read_byte_ram2 (c : CPU) (a : Nat) (h1 : a ≠ 65281) (h3 : a ≠ 65283)
    (h2 : a ≠ 65282) (hlt : a < 65536) :
    cpu_read_byte c a = (c.memory a % 256, c) := by
  unfold cpu_read_byte PORT_STDIN PORT_TIMER_VALUE PORT_TIMER_CTRL
  rw [if_neg h1, if_neg h3, if_neg h2, Nat.mod_eq_of_lt hlt]

theorem cpu_get_reg_valid (c : CPU) (r : Nat) (h : r < 6) :
    cpu_get_reg c r = c.regs r % 65536 := by
  unfold cpu_get_reg
  rw [if_pos h]

theorem cpu_push_ram (c : CPU) (value : Nat)
    (h0 : (c.regs REG_SP % 65536 + 65534) % 65536 ≠ 65280)
    (h2 : (c.regs REG_SP % 65536 + 65534) % 65536 ≠ 65282)
    (h3 : (c.regs REG_SP % 65536 + 65534) % 65536 ≠ 65283)
    (g0 : ((c.regs REG_SP % 65536 + 65534) % 65536 + 1) % 65536 ≠ 65280)
    (g2 : ((c.regs REG_SP % 65536 + 65534) % 65536 + 1) % 65536 ≠ 65282)
    (g3 : ((c.regs REG_SP % 65536 + 65534) % 65536 + 1) % 65536 ≠ 65283) :
    cpu_push c value = { c with
      regs := upd c.regs REG_SP ((c.regs REG_SP % 65536 + 65534) % 65536)
      memory := upd
        (upd c.memory ((c.regs REG_SP % 65536 + 65534) % 65536) (value % 256))
        (((c.regs REG_SP % 65536 + 65534) % 65536 + 1) % 65536) (value / 256 % 256) } := by
  simp only [cpu_push, cpu_write_word]
  rw [cpu_write_byte_ram2 _ _ _ h0 h2 h3 (by omega),
    cpu_write_byte_ram2 _ _ _ g0 g2 g3 (by omega)]
  simp only [(show value % 256 % 256 = value % 256 by omega),
    (show value / 256 % 256 % 256 = value / 256 % 256 by omega)]

theorem pop_push_ram (c : CPU) (value : Nat) (hvlt : value < 65536)
    (h0 : (c.regs REG_SP % 65536 + 65534) % 65536 ≠ 65280)
    (h1 : (c.regs REG_SP % 65536 + 65534) % 65536 ≠ 65281)
    (h2 : (c.regs REG_SP % 65536 + 65534) % 65536 ≠ 65282)
    (h3 : (c.regs REG_SP % 65536 + 65534) % 65536 ≠ 65283)
    (g0 : ((c.regs REG_SP % 65536 + 65534) % 65536 + 1) % 65536 ≠ 65280)
    (g1 : ((c.regs REG_SP % 65536 + 65534) % 65536 + 1) % 65536 ≠ 65281)
    (g2 : ((c.regs REG_SP % 65536 + 65534) % 65536 + 1) % 65536 ≠ 65282)
    (g3 : ((c.regs REG_SP % 65536 + 65534) % 65536 + 1) % 65536 ≠ 65283) :
    cpu_pop (cpu_push c value) =
      (value, { c with
        regs := upd (upd c.regs REG_SP ((c.regs REG_SP % 65536 + 65534) % 65536)) REG_SP
          (((c.regs REG_SP % 65536 + 65534) % 65536 + 2) % 65536)
        memory := upd
          (upd c.memory ((c.regs REG_SP % 65536 + 65534) % 65536) (value % 256))
          (((c.regs REG_SP % 65536 + 65534) % 65536 + 1) % 65536) (value / 256 % 256) }) := by
  rw [cpu_push_ram c value h0 h2 h3 g0 g2 g3]
  have hsp : upd c.regs REG_SP ((c.regs REG_SP % 65536 + 65534) % 65536) REG_SP % 65536
      = (c.regs REG_SP % 65536 + 65534) % 65536 := by
    rw [upd_same]
    omega
  simp only [cpu_pop, cpu_read_word]
  rw [hsp]
  rw [cpu_read_byte_ram2 _ _ h1 h3 h2 (by omega)]
  simp only []
  rw [cpu_read_byte_ram2 _ _ g1 g3 g2 (by omega)]
  simp only []
  rw [upd_same,
    upd_ne _ _ _ _ (show (c.regs REG_SP % 65536 + 65534) % 65536
      ≠ ((c.regs REG_SP % 65536 + 65534) % 65536 + 1) % 65536 by omega),
    upd_same]
  have hval : value / 256 % 256 % 256 * 256 + value % 256 % 256 = value := by omega
  rw [hval, hsp]

/-- C5 (amended): pushing register r and then popping into register r2
restores SP and leaves the pushed value in r2, provided r2 is a register
other than SP and the two stack bytes do not land on a mapped I/O port;
the push itself decrements SP by 2 (mod 2^16) and stores the value
little-endian at the new SP. -/
theorem push_pop_roundtrip (c : CPU) (r r2 : Nat)
    (hr2 : r2 < 6) (hnsp : r2 ≠ REG_SP)
    (hp : ∀ p ∈ [65280, 65281, 65282, 65283],
      (cpu_get_reg c REG_SP + 65534) % 65536 ≠ p ∧
      ((cpu_get_reg c REG_SP + 65534) % 65536 + 1) % 65536 ≠ p) :
    cpu_get_reg (push_pop c r r2) r2 = cpu_get_reg c r ∧
    cpu_get_reg (push_pop c r r2) REG_SP = cpu_get_reg c REG_SP ∧
    cpu_get_reg (cpu_push c (cpu_get_reg c r)) REG_SP
      = (cpu_get_reg c REG_SP + 65534) % 65536 ∧
    (cpu_push c (cpu_get_reg c r)).memory ((cpu_get_reg c REG_SP + 65534) % 65536)
      = cpu_get_reg c r % 256 ∧
    (cpu_push c (cpu_get_reg c r)).memory
        (((cpu_get_reg c REG_SP + 65534) % 65536 + 1) % 65536)
      = cpu_get_reg c r / 256 % 256 := by
  obtain ⟨ha0, hb0⟩ := hp 65280 (by simp)
  obtain ⟨ha1, hb1⟩ := hp 65281 (by simp)
  obtain ⟨ha2, hb2⟩ := hp 65282 (by simp)
  obtain ⟨ha3, hb3⟩ := hp 65283 (by simp)
  have hgr : cpu_get_reg c REG_SP = c.regs REG_SP % 65536 := rfl
  rw [hgr] at ha0 hb0 ha1 hb1 ha2 hb2 ha3 hb3 ⊢
  have hvlt : cpu_get_reg c r < 65536 := cpu_get_reg_lt c r
  have hpp := pop_push_ram c (cpu_get_reg c r) hvlt ha0 ha1 ha2 ha3 hb0 hb1 hb2 hb3
  refine ⟨?_, ?_, ?_, ?_, ?_⟩
  · rw [push_pop, hpp, cpu_get_reg_set_reg_same _ _ _ hr2]
    omega
  · rw [push_pop, hpp,
      cpu_get_reg_set_reg_ne _ _ _ _ (show REG_SP ≠ r2 from fun hh => hnsp hh.symm),
      cpu_get_reg_valid _ _ (show REG_SP < 6 by decide)]
    simp only [upd, if_true]
    omega
  · rw [cpu_push_ram c (cpu_get_reg c r) ha0 ha2 ha3 hb0 hb2 hb3,
      cpu_get_reg_valid _ _ (show REG_SP < 6 by decide)]
    simp only [upd, if_true]
    omega
  · rw [cpu_push_ram c (cpu_get_reg c r) ha0 ha2 ha3 hb0 hb2 hb3]
    simp only [upd]
    rw [if_neg (by omega)]
    simp only [if_true]
  · rw [cpu_push_ram c (cpu_get_reg c r) ha0 ha2 ha3 hb0 hb2 hb3]
    simp only [upd, if_true]

/-- PUSH/POP test state: A = 5, SP = 0x1000. -/
def ppTest : CPU :=
  { regs := upd (upd (fun _ => 0) REG_A 5) REG_SP 4096
    flags := 0
    memory := fun _ => 0
    running := false
    halted := false
    cycles := 0
    timer_value := 0
    timer_enabled := false
    input := []
    output := [] }

/-- C5 witness: PUSH A; POP B with A = 5, SP = 0x1000. -/
theorem push_pop_roundtrip_witness :
    cpu_get_reg (push_pop ppTest REG_A REG_B) REG_B = cpu_get_reg ppTest REG_A ∧
    cpu_get_reg (push_pop ppTest REG_A REG_B) REG_SP = cpu_get_reg ppTest REG_SP ∧
    cpu_get_reg (cpu_push ppTest (cpu_get_reg ppTest REG_A)) REG_SP
      = (cpu_get_reg ppTest REG_SP + 65534) % 65536 ∧
    (cpu_push ppTest (cpu_get_reg ppTest REG_A)).memory
        ((cpu_get_reg ppTest REG_SP + 65534) % 65536)
      = cpu_get_reg ppTest REG_A % 256 ∧
    (cpu_push ppTest (cpu_get_reg ppTest REG_A)).memory
        (((cpu_get_reg ppTest REG_SP + 65534) % 65536 + 1) % 65536)
      = cpu_get_reg ppTest REG_A / 256 % 256 :=
  push_pop_roundtrip ppTest REG_A REG_B (by decide) (by decide) (by decide)

/-- C5 counterexample: popping into SP itself (PUSH A; POP SP) leaves SP
holding the pushed value, not its value from before the push. -/
theorem push_pop_claim_counterexample :
    cpu_get_reg (push_pop ppTest REG_A REG_SP) REG_SP ≠ cpu_get_reg ppTest REG_SP := by
  decide

/-! Frame lemmas for the remaining composite state transformers. -/

@[simp] theorem cpu_read_word_cycles (c : CPU) (a : Nat) :
    (cpu_read_word c a).2.cycles = c.cycles := by
  unfold cpu_read_word
  simp

@[simp] theorem cpu_write_word_cycles (c : CPU) (a v : Nat) :
    (cpu_write_word c a v).cycles = c.cycles := by
  unfold cpu_write_word
  simp

@[simp] theorem cpu_push_cycles (c : CPU) (v : Nat) :
    (cpu_push c v).cycles = c.cycles := by
  unfold cpu_push
  simp

@[simp] theorem cpu_pop_cycles (c : CPU) :
    (cpu_pop c).2.cycles = c.cycles := by
  unfold cpu_pop
  simp

/-- The per-outcome frame facts of the decode/execute switch: a success
leaves the cycle counter alone, and an error (DIV by zero or unknown
opcode) leaves registers, flags, memory, cycles, output and the
execution flags exactly as the switch found them. -/
def execFrame (c : CPU) : ExecOut → Prop
  | .ok _ c2 => c2.cycles = c.cycles
  | .err _ c2 => c2.regs = c.regs ∧ c2.flags = c.flags ∧ c2.memory = c.memory ∧
      c2.cycles = c.cycles ∧ c2.output = c.output ∧ c2.running = c.running ∧
      c2.halted = c.halted

theorem cpu_exec_frame (opcode pc : Nat) (c : CPU) : execFrame c (cpu_exec opcode pc c) := by
  unfold cpu_exec
  by_cases h0 : opcode = OP_NOP
  · rw [if_pos h0]
    simp [execFrame]
  rw [if_neg h0]
  by_cases h1 : opcode = OP_LOAD_IMM
  · rw [if_pos h1]
    simp [exec_load_imm, execFrame]
  rw [if_neg h1]
  by_cases h2 : opcode = OP_LOAD_MEM
  · rw [if_pos h2]
    simp [exec_load_mem, execFrame]
  rw [if_neg h2]
  by_cases h3 : opcode = OP_STORE
  · rw [if_pos h3]
    simp [exec_store, execFrame]
  rw [if_neg h3]
  by_cases h4 : opcode = OP_MOV
  · rw [if_pos h4]
    simp [exec_mov, execFrame]
  rw [if_neg h4]
  by_cases h5 : opcode = OP_PUSH
  · rw [if_pos h5]
    simp [exec_push, execFrame]
  rw [if_neg h5]
  by_cases h6 : opcode = OP_POP
  · rw [if_pos h6]
    simp [exec_pop, execFrame]
  rw [if_neg h6]
  by_cases h7 : opcode = OP_ADD
  · rw [if_pos h7]
    simp [exec_add, execFrame]
  rw [if_neg h7]
  by_cases h8 : opcode = OP_ADDI
  · rw [if_pos h8]
    simp [exec_addi, execFrame]
  rw [if_neg h8]
  by_cases h9 : opcode = OP_SUB
  · rw [if_pos h9]
    simp [exec_sub, execFrame]
  rw [if_neg h9]
  by_cases h10 : opcode = OP_SUBI
  · rw [if_pos h10]
    simp [exec_subi, execFrame]
  rw [if_neg h10]
  by_cases h11 : opcode = OP_MUL
  · rw [if_pos h11]
    simp [exec_mul, execFrame]
  rw [if_neg h11]
  by_cases h12 : opcode = OP_DIV
  · rw [if_pos h12]
    simp only [exec_div]
    split <;> simp [execFrame]
  rw [if_neg h12]
  by_cases h13 : opcode = OP_INC
  · rw [if_pos h13]
    simp [exec_inc, execFrame]
  rw [if_neg h13]
  by_cases h14 : opcode = OP_DEC
  · rw [if_pos h14]
    simp [exec_dec, execFrame]
  rw [if_neg h14]
  by_cases h15 : opcode = OP_AND
  · rw [if_pos h15]
    simp [exec_and, execFrame]
  rw [if_neg h15]
  by_cases h16 : opcode = OP_OR
  · rw [if_pos h16]
    simp [exec_or, execFrame]
  rw [if_neg h16]
  by_cases h17 : opcode = OP_XOR
  · rw [if_pos h17]
    simp [exec_xor, execFrame]
  rw [if_neg h17]
  by_cases h18 : opcode = OP_NOT
  · rw [if_pos h18]
    simp [exec_not, execFrame]
  rw [if_neg h18]
  by_cases h19 : opcode = OP_SHL
  · rw [if_pos h19]
    simp [exec_shl, execFrame]
  rw [if_neg h19]
  by_cases h20 : opcode = OP_SHR
  · rw [if_pos h20]
    simp [exec_shr, execFrame]
  rw [if_neg h20]
  by_cases h21 : opcode = OP_CMP
  · rw [if_pos h21]
    simp [exec_cmp, execFrame]
  rw [if_neg h21]
  by_cases h22 : opcode = OP_CMPI
  · rw [if_pos h22]
    simp [exec_cmpi, execFrame]
  rw [if_neg h22]
  by_cases h23 : opcode = OP_JMP
  · rw [if_pos h23]
    simp [exec_jmp, execFrame]
  rw [if_neg h23]
  by_cases h24 : opcode = OP_JZ
  · rw [if_pos h24]
    simp [exec_jz, execFrame]
  rw [if_neg h24]
  by_cases h25 : opcode = OP_JNZ
  · rw [if_pos h25]
    simp [exec_jnz, execFrame]
  rw [if_neg h25]
  by_cases h26 : opcode = OP_JC
  · rw [if_pos h26]
    simp [exec_jc, execFrame]
  rw [if_neg h26]
  by_cases h27 : opcode = OP_JNC
  · rw [if_pos h27]
    simp [exec_jnc, execFrame]
  rw [if_neg h27]
  by_cases h28 : opcode = OP_CALL
  · rw [if_pos h28]
    simp [exec_call, execFrame]
  rw [if_neg h28]
  by_cases h29 : opcode = OP_RET
  · rw [if_pos h29]
    simp [exec_ret, execFrame]
  rw [if_neg h29]
  by_cases h30 : opcode = OP_IN
  · rw [if_pos h30]
    simp [exec_in, execFrame]
  rw [if_neg h30]
  by_cases h31 : opcode = OP_OUT
  · rw [if_pos h31]
    simp [exec_out, execFrame]
  rw [if_neg h31]
  by_cases h32 : opcode = OP_HLT
  · rw [if_pos h32]
    simp [execFrame]
  rw [if_neg h32]
  simp [execFrame]

theorem cpu_exec_err_frame (opcode pc : Nat) (c : CPU) (e : RuntimeError) (c2 : CPU)
    (h : cpu_exec opcode pc c = .err e c2) :
    c2.regs = c.regs ∧ c2.flags = c.flags ∧ c2.memory = c.memory ∧ c2.cycles = c.cycles ∧
    c2.output = c.output ∧ c2.running = c.running ∧ c2.halted = c.halted := by
  have hf := cpu_exec_frame opcode pc c
  rw [h] at hf
  exact hf

/-- No branch of the decode/execute switch touches the cycle counter. -/
theorem cpu_exec_ok_cycles (opcode pc : Nat) (c : CPU) (pcN : Nat) (c2 : CPU)
    (h : cpu_exec opcode pc c = .ok pcN c2) : c2.cycles = c.cycles := by
  have hf := cpu_exec_frame opcode pc c
  rw [h] at hf
  exact hf


/-- C9 (amended): a fatal step (DIV by zero or unknown opcode) commits
nothing except the halted flag: registers (including PC, which still
holds the offending instruction address), flags, memory, the cycle
counter and the output stream are unchanged and `halted` is set (the
enabled timer still ticks, which is the one exception).  The cycle
counter increments exactly on steps that return success, and a step on a
halted CPU is a no-op. -/
theorem fatal_step_frame (c : CPU) :
    (∀ e c2, cpu_step c = (.err e, c2) →
      c2.regs = c.regs ∧ c2.flags = c.flags ∧ c2.memory = c.memory ∧
      c2.cycles = c.cycles ∧ c2.output = c.output ∧ c2.halted = true) ∧
    (∀ c2, cpu_step c = (.ok, c2) → c2.cycles = c.cycles + 1) ∧
    (c.halted = true → cpu_step c = (.alreadyHalted, c)) := by
  refine ⟨?_, ?_, ?_⟩
  · intro e c2 h
    unfold cpu_step at h
    by_cases hh : c.halted
    · rw [if_pos hh] at h
      exact absurd h (by simp)
    · rw [if_neg hh] at h
      cases hex : cpu_exec (cpu_read_byte c (c.regs REG_PC % 65536)).1
          ((c.regs REG_PC % 65536 + 1) % 65536)
          (timerBump (cpu_read_byte c (c.regs REG_PC % 65536)).2) with
      | ok pcN cN =>
        simp only [hex] at h
        exact absurd h (by simp)
      | err e2 cN =>
        simp only [hex] at h
        injection h with h1 h2
        subst h2
        obtain ⟨hr, hf, hm, hc, ho, hru, hh2⟩ := cpu_exec_err_frame _ _ _ _ _ hex
        refine ⟨?_, ?_, ?_, ?_, ?_, rfl⟩ <;> simp [hr, hf, hm, hc, ho]
  · intro c2 h
    unfold cpu_step at h
    by_cases hh : c.halted
    · rw [if_pos hh] at h
      exact absurd h (by simp)
    · rw [if_neg hh] at h
      cases hex : cpu_exec (cpu_read_byte c (c.regs REG_PC % 65536)).1
          ((c.regs REG_PC % 65536 + 1) % 65536)
          (timerBump (cpu_read_byte c (c.regs REG_PC % 65536)).2) with
      | ok pcN cN =>
        simp only [hex] at h
        injection h with h1 h2
        subst h2
        have hcy := cpu_exec_ok_cycles _ _ _ _ _ hex
        simp [hcy]
      | err e2 cN =>
        simp only [hex] at h
        exact absurd h (by simp)
  · intro hh
    unfold cpu_step
    rw [if_pos hh]

/-- The divide-by-zero state with the timer enabled. -/
def timerDivTest : CPU :=
  { divZeroTest with timer_enabled := true }

/-- C9 counterexample: on a fatal divide-by-zero step with the timer
enabled, the timer register changes, so the committed state is not
untouched outside the halted flag. -/
theorem fatal_step_timer_counterexample :
    (cpu_step timerDivTest).1 = .err (.DivideByZero 256) ∧
    (cpu_step timerDivTest).2.timer_value ≠ timerDivTest.timer_value := by
  decide

/-- C9 witness: the failing DIV step keeps cycles and sets halted; the
succeeding DIV step increments cycles. -/
theorem fatal_step_frame_witness :
    ((cpu_step divZeroTest).2.cycles = divZeroTest.cycles ∧
      (cpu_step divZeroTest).2.halted = true) ∧
    (cpu_step divTest).2.cycles = divTest.cycles + 1 := by
  have h1 := div_zero_step divZeroTest 256 REG_A REG_B (by decide) (by decide) (by decide)
    (by decide) (by decide) (by decide) (by decide) (by decide)
  have h2 := div_nonzero_step divTest 256 REG_A REG_B (by decide) (by decide) (by decide)
    (by decide) (by decide) (by decide) (by decide) (by decide)
  have ha := (fatal_step_frame divZeroTest).1 _ _ h1
  have hb := (fatal_step_frame divTest).2.1 _ h2
  exact ⟨⟨ha.2.2.2.1, ha.2.2.2.2.2⟩, hb⟩

/-! Label-table lemmas for the assembler. -/

@[simp] theorem emit_byte_labels (a : Assembler) (b : Nat) :
    (emit_byte a b).labels = a.labels := by
  unfold emit_byte
  split <;> rfl

@[simp] theorem emit_word_labels (a : Assembler) (w : Nat) :
    (emit_word a w).labels = a.labels := by
  unfold emit_word
  simp

theorem encodeTwoReg_labels {a : Assembler} {op : Nat} {x y : List Char} {a2 : Assembler}
    (h : encodeTwoReg a op x y = some a2) : a2.labels = a.labels := by
  unfold encodeTwoReg at h
  repeat' split at h
  all_goals
    first
      | exact Option.noConfusion h
      | (injection h with h1
         subst h1
         simp)

theorem encodeRegImm_labels {a : Assembler} {op : Nat} {x y : List Char} {a2 : Assembler}
    (h : encodeRegImm a op x y = some a2) : a2.labels = a.labels := by
  unfold encodeRegImm at h
  repeat' split at h
  all_goals
    first
      | exact Option.noConfusion h
      | (injection h with h1
         subst h1
         simp)

theorem encodeOneReg_labels {a : Assembler} {op : Nat} {x : List Char} {a2 : Assembler}
    (h : encodeOneReg a op x = some a2) : a2.labels = a.labels := by
  unfold encodeOneReg at h
  repeat' split at h
  all_goals
    first
      | exact Option.noConfusion h
      | (injection h with h1
         subst h1
         simp)

/-- Every instruction-encoding branch either fails or only appends
output bytes: the label table is never modified by statement
encoding. -/
theorem asm_encode_statement_labels {a : Assembler} {instr arg1 arg2 : List Char}
    {a2 : Assembler} (h : asm_encode_statement a instr arg1 arg2 = some a2) :
    a2.labels = a.labels := by
  unfold asm_encode_statement at h
  by_cases h0 : instr = "NOP".toList
  · rw [if_pos h0] at h
    injection h with h1
    subst h1
    simp
  rw [if_neg h0] at h
  by_cases h1 : instr = "HLT".toList
  · rw [if_pos h1] at h
    injection h with h1
    subst h1
    simp
  rw [if_neg h1] at h
  by_cases h2 : instr = "LOAD".toList
  · rw [if_pos h2] at h
    try simp only [] at h
    repeat' split at h
    all_goals
      first
        | exact Option.noConfusion h
        | (injection h with h1
           subst h1
           simp)
  rw [if_neg h2] at h
  by_cases h3 : instr = "STORE".toList
  · rw [if_pos h3] at h
    try simp only [] at h
    repeat' split at h
    all_goals
      first
        | exact Option.noConfusion h
        | (injection h with h1
           subst h1
           simp)
  rw [if_neg h3] at h
  by_cases h4 : instr = "MOV".toList
  · rw [if_pos h4] at h
    exact encodeTwoReg_labels h
  rw [if_neg h4] at h
  by_cases h5 : instr = "PUSH".toList
  · rw [if_pos h5] at h
    exact encodeOneReg_labels h
  rw [if_neg h5] at h
  by_cases h6 : instr = "POP".toList
  · rw [if_pos h6] at h
    exact encodeOneReg_labels h
  rw [if_neg h6] at h
  by_cases h7 : instr = "ADD".toList
  · rw [if_pos h7] at h
    exact encodeTwoReg_labels h
  rw [if_neg h7] at h
  by_cases h8 : instr = "ADDI".toList
  · rw [if_pos h8] at h
    exact encodeRegImm_labels h
  rw [if_neg h8] at h
  by_cases h9 : instr = "SUB".toList
  · rw [if_pos h9] at h
    exact encodeTwoReg_labels h
  rw [if_neg h9] at h
  by_cases h10 : instr = "SUBI".toList
  · rw [if_pos h10] at h
    exact encodeRegImm_labels h
  rw [if_neg h10] at h
  by_cases h11 : instr = "MUL".toList
  · rw [if_pos h11] at h
    exact encodeTwoReg_labels h
  rw [if_neg h11] at h
  by_cases h12 : instr = "DIV".toList
  · rw [if_pos h12] at h
    exact encodeTwoReg_labels h
  rw [if_neg h12] at h
  by_cases h13 : instr = "INC".toList
  · rw [if_pos h13] at h
    exact encodeOneReg_labels h
  rw [if_neg h13] at h
  by_cases h14 : instr = "DEC".toList
  · rw [if_pos h14] at h
    exact encodeOneReg_labels h
  rw [if_neg h14] at h
  by_cases h15 : instr = "AND".toList
  · rw [if_pos h15] at h
    exact encodeTwoReg_labels h
  rw [if_neg h15] at h
  by_cases h16 : instr = "OR".toList
  · rw [if_pos h16] at h
    exact encodeTwoReg_labels h
  rw [if_neg h16] at h
  by_cases h17 : instr = "XOR".toList
  · rw [if_pos h17] at h
    exact encodeTwoReg_labels h
  rw [if_neg h17] at h
  by_cases h18 : instr = "NOT".toList
  · rw [if_pos h18] at h
    exact encodeOneReg_labels h
  rw [if_neg h18] at h
  by_cases h19 : instr = "SHL".toList ∨ instr = "SHR".toList
  · rw [if_pos h19] at h
    try simp only [] at h
    repeat' split at h
    all_goals
      first
        | exact Option.noConfusion h
        | (injection h with h1
           subst h1
           simp)
  rw [if_neg h19] at h
  by_cases h20 : instr = "CMP".toList
  · rw [if_pos h20] at h
    exact encodeTwoReg_labels h
  rw [if_neg h20] at h
  by_cases h21 : instr = "CMPI".toList
  · rw [if_pos h21] at h
    exact encodeRegImm_labels h
  rw [if_neg h21] at h
  by_cases h22 : instr = "JMP".toList ∨ instr = "JZ".toList ∨ instr = "JNZ".toList ∨ instr = "JC".toList ∨ instr = "JNC".toList ∨ instr = "CALL".toList
  · rw [if_pos h22] at h
    try simp only [] at h
    repeat' split at h
    all_goals
      first
        | exact Option.noConfusion h
        | (injection h with h1
           subst h1
           simp)
  rw [if_neg h22] at h
  by_cases h23 : instr = "RET".toList
  · rw [if_pos h23] at h
    injection h with h1
    subst h1
    simp
  rw [if_neg h23] at h
  by_cases h24 : instr = "OUT".toList
  · rw [if_pos h24] at h
    try simp only [] at h
    repeat' split at h
    all_goals
      first
        | exact Option.noConfusion h
        | (injection h with h1
           subst h1
           simp)
  rw [if_neg h24] at h
  by_cases h25 : instr = "IN".toList
  · rw [if_pos h25] at h
    try simp only [] at h
    repeat' split at h
    all_goals
      first
        | exact Option.noConfusion h
        | (injection h with h1
           subst h1
           simp)
  rw [if_neg h25] at h
  exact Option.noConfusion h

theorem asm_parse_statement_labels {a : Assembler} {l : List Char} {a2 : Assembler}
    (h : asm_parse_statement a l = some a2) : a2.labels = a.labels := by
  simp only [asm_parse_statement] at h
  split at h
  · exact asm_encode_statement_labels h
  · exact asm_encode_statement_labels h

theorem asm_add_label_labels {a : Assembler} {nm : List Char} {addr : Nat} {a2 : Assembler}
    (h : asm_add_label a nm addr = some a2) :
    a2.labels = a.labels ++ [(nm.take 63, addr)] := by
  unfold asm_add_label at h
  repeat' split at h
  all_goals
    first
      | exact Option.noConfusion h
      | (injection h with h1
         subst h1
         rfl)

/-- A successfully parsed line either leaves the label table alone or
appends exactly one label whose address is 0x0100 plus the output size
the line was entered with. -/
theorem asm_parse_line_labels {a : Assembler} {l : List Char} {a2 : Assembler}
    (h : asm_parse_line a l = some a2) :
    a2.labels = a.labels ∨
    ∃ nm, a2.labels = a.labels ++ [(nm, 0x0100 + a.output.length)] := by
  simp only [asm_parse_line] at h
  split at h
  · injection h with h1
    subst h1
    exact Or.inl rfl
  · split at h
    · injection h with h1
      subst h1
      exact Or.inl rfl
    · split at h
      · -- a label is present on the line
        rename_i p
        split at h
        · exact Option.noConfusion h
        · rename_i a1 hadd
          have hl := asm_add_label_labels hadd
          split at h
          · injection h with h1
            subst h1
            exact Or.inr ⟨_, hl⟩
          · have hs := asm_parse_statement_labels h
            rw [hs]
            exact Or.inr ⟨_, hl⟩
      · exact Or.inl (asm_parse_statement_labels h)

theorem asm_assemble_lines_append (a : Assembler) (xs ys : List (List Char)) :
    asm_assemble_lines a (xs ++ ys) =
      (asm_assemble_lines a xs).bind (fun a1 => asm_assemble_lines a1 ys) := by
  induction xs generalizing a with
  | nil => rfl
  | cons x xs ih =>
    simp only [List.cons_append, asm_assemble_lines]
    cases hpl : asm_parse_line { a with current_line := a.current_line + 1 } x with
    | none => rfl
    | some a1 => exact ih a1

/-- Assembling any further lines only appends to the label table. -/
theorem asm_assemble_lines_labels_extend {a : Assembler} {ls : List (List Char)}
    {a2 : Assembler} (h : asm_assemble_lines a ls = some a2) :
    ∃ t, a2.labels = a.labels ++ t := by
  induction ls generalizing a with
  | nil =>
    injection h with h1
    subst h1
    exact ⟨[], by simp⟩
  | cons l ls ih =>
    simp only [asm_assemble_lines] at h
    cases hpl : asm_parse_line { a with current_line := a.current_line + 1 } l with
    | none =>
      rw [hpl] at h
      exact Option.noConfusion h
    | some a1 =>
      rw [hpl] at h
      obtain ⟨t, ht⟩ := ih h
      rcases asm_parse_line_labels hpl with hsame | ⟨nm, happ⟩
      · exact ⟨t, by rw [ht, hsame]⟩
      · exact ⟨(nm, 0x0100 + a.output.length) :: t, by rw [ht, happ]; simp⟩

/-- C7: for every assembly source accepted by the assembler, the address
recorded for a label equals 0x0100 plus the number of output bytes
emitted before the line defining it, and that recorded address survives
to the end of the assembly.  `pre` are the lines before the defining
line, `post` the lines after it. -/
theorem label_address_spec (pre : List (List Char)) (line : List Char)
    (post : List (List Char)) (a0 a1 af : Assembler) (nm : List Char) (addr : Nat)
    (hpre : asm_assemble_lines asm_init pre = some a0)
    (hline : asm_assemble_lines asm_init (pre ++ [line]) = some a1)
    (hall : asm_assemble_lines asm_init (pre ++ line :: post) = some af)
    (hnew : asm_find_label a0 nm = none)
    (hdef : asm_find_label a1 nm = some addr) :
    addr = 0x0100 + a0.output.length ∧ asm_find_label af nm = some addr := by
  have hfind0 : a0.labels.find? (fun l => l.1 == nm) = none := by
    unfold asm_find_label at hnew
    exact Option.map_eq_none'.mp hnew
  have h1 : asm_assemble_lines a0 [line] = some a1 := by
    rw [asm_assemble_lines_append, hpre] at hline
    exact hline
  have h2 : asm_parse_line { a0 with current_line := a0.current_line + 1 } line = some a1 := by
    simp only [asm_assemble_lines] at h1
    cases hpl : asm_parse_line { a0 with current_line := a0.current_line + 1 } line with
    | none =>
      rw [hpl] at h1
      exact Option.noConfusion h1
    | some aL =>
      rw [hpl] at h1
      injection h1 with h1'
      rw [h1']
  rcases asm_parse_line_labels h2 with hsame | ⟨nm2, happ⟩
  · have hsame' : a1.labels = a0.labels := hsame
    unfold asm_find_label at hdef
    rw [hsame', hfind0] at hdef
    exact Option.noConfusion hdef
  · have happ' : a1.labels = a0.labels ++ [(nm2, 256 + a0.output.length)] := happ
    unfold asm_find_label at hdef
    rw [happ', List.find?_append, hfind0, Option.none_or] at hdef
    cases hbe : (nm2 == nm) with
    | false =>
      rw [List.find?_cons_of_neg _ (by simp [hbe]), List.find?_nil] at hdef
      exact Option.noConfusion hdef
    | true =>
      rw [List.find?_cons_of_pos _ (by simp [hbe])] at hdef
      have haddr : addr = 256 + a0.output.length := by
        simpa using hdef.symm
      refine ⟨haddr, ?_⟩
      have hsplit : pre ++ line :: post = (pre ++ [line]) ++ post := by simp
      rw [hsplit, asm_assemble_lines_append, hline] at hall
      have hpost : asm_assemble_lines a1 post = some af := hall
      obtain ⟨t, ht⟩ := asm_assemble_lines_labels_extend hpost
      unfold asm_find_label
      rw [ht, happ', List.append_assoc, List.find?_append, hfind0, Option.none_or,
        List.find?_append, List.find?_cons_of_pos _ (by simp [hbe])]
      have hor : (some (nm2, 256 + a0.output.length)).or
          (List.find? (fun l => l.1 == nm) t) = some (nm2, 256 + a0.output.length) := rfl
      rw [hor]
      simp only [Option.map_some']
      rw [haddr]

/-- C7 witness: source "NOP" / "FOO: HLT" / "NOP"; the label FOO is
recorded at 0x0100 + 1 (one NOP byte emitted before its line) and is
still found with that address after the whole source is assembled. -/
theorem label_address_spec_witness :
    257 = 0x0100 + (⟨[0], [], 1, false⟩ : Assembler).output.length ∧
    asm_find_label (⟨[0, 255, 0], [("FOO".toList, 257)], 3, false⟩ : Assembler)
      "FOO".toList = some 257 :=
  label_address_spec ["NOP".toList] "FOO: HLT".toList ["NOP".toList]
    ⟨[0], [], 1, false⟩ ⟨[0, 255], [("FOO".toList, 257)], 2, false⟩
    ⟨[0, 255, 0], [("FOO".toList, 257)], 3, false⟩ "FOO".toList 257
    (by decide) (by decide) (by decide) (by decide) (by decide)

/-- C10: asm_parse_number accepts the empty string, returning success
with value 0 (strtol parses no digits, leaves the end pointer at the
terminating NUL and yields 0); consequently "LOAD A," — a two-operand
instruction with a trailing comma and no second operand — assembles
without error, encoding LOAD A, 0. -/
theorem parse_number_empty_accepted :
    asm_parse_number [] = some 0 ∧
    asm_parse_line asm_init "LOAD A,".toList =
      some { asm_init with output := [OP_LOAD_IMM, REG_A, 0, 0] } := by
  decide
